import Mathlib

/-!
Verification of the XACT SoundBank binary decoder (`XACTSoundBank_Binary`),
a decoder turning a raw byte buffer (XSB format) into an in-memory sound
bank: wave banks, cues with weighted variations, sounds with tracks and
timed events.

The decoder is embedded shallowly: the byte source becomes an explicit
`ByteStream` record threaded through every reader, fallible reads return
`Except String`, and each C++ reader function becomes a Lean function of
the same name.  Fields that the C++ code stores as IEEE-754 floats after a
scale/clamp are stored here as the raw fixed-point integers read from the
stream (the scale factors are noted in comments); every integral
computation (offsets, masks, shifts, integral clamps, weights) is modelled
exactly.
-/

namespace XACT

/-- A random-access byte source: the raw buffer plus a read position.
Bytes are stored as naturals; `byteAt` reduces modulo 256, reflecting that
the underlying buffer holds octets. -/
structure ByteStream where
  data : List Nat
  pos : Nat
deriving Repr, DecidableEq

/-- Total number of bytes in the buffer. -/
def ByteStream.size (s : ByteStream) : Nat := s.data.length

/-- The byte stored at absolute position `i` (0 when out of range). -/
def ByteStream.byteAt (s : ByteStream) (i : Nat) : Nat := s.data.getD i 0 % 256

/-- Modelled from the spec: the bounds-checked read primitive of the byte
source (`Common::SeekableReadStream` is declared outside src).  Reading a
single byte fails if the position is at or past the end. -/
def readByte (s : ByteStream) : Except String (Nat × ByteStream) :=
  if s.pos + 1 ≤ s.size then
    .ok (s.byteAt s.pos, ⟨s.data, s.pos + 1⟩)
  else
    .error "XSB: read past end of stream"

/-- Modelled from the spec: signed single-byte read (two's complement). -/
def readSByte (s : ByteStream) : Except String (Int × ByteStream) :=
  if s.pos + 1 ≤ s.size then
    let v := s.byteAt s.pos
    .ok (if v < 128 then (v : Int) else (v : Int) - 256, ⟨s.data, s.pos + 1⟩)
  else
    .error "XSB: read past end of stream"

/-- The unsigned 16-bit little-endian value assembled from positions
`i, i+1`. -/
def ByteStream.le16 (s : ByteStream) (i : Nat) : Nat :=
  s.byteAt i + s.byteAt (i + 1) * 256

/-- The unsigned 32-bit little-endian value assembled from positions
`i, …, i+3`. -/
def ByteStream.le32 (s : ByteStream) (i : Nat) : Nat :=
  s.byteAt i + s.byteAt (i + 1) * 256 + s.byteAt (i + 2) * 65536 +
    s.byteAt (i + 3) * 16777216

/-- The unsigned 32-bit big-endian value assembled from positions
`i, …, i+3`. -/
def ByteStream.be32 (s : ByteStream) (i : Nat) : Nat :=
  s.byteAt i * 16777216 + s.byteAt (i + 1) * 65536 + s.byteAt (i + 2) * 256 +
    s.byteAt (i + 3)

/-- Modelled from the spec: bounds-checked `readUint16LE`. -/
def readUint16LE (s : ByteStream) : Except String (Nat × ByteStream) :=
  if s.pos + 2 ≤ s.size then
    .ok (s.le16 s.pos, ⟨s.data, s.pos + 2⟩)
  else
    .error "XSB: read past end of stream"

/-- Modelled from the spec: bounds-checked `readSint16LE` (two's
complement). -/
def readSint16LE (s : ByteStream) : Except String (Int × ByteStream) :=
  if s.pos + 2 ≤ s.size then
    let v := s.le16 s.pos
    .ok (if v < 32768 then (v : Int) else (v : Int) - 65536, ⟨s.data, s.pos + 2⟩)
  else
    .error "XSB: read past end of stream"

/-- Modelled from the spec: bounds-checked `readUint32LE`. -/
def readUint32LE (s : ByteStream) : Except String (Nat × ByteStream) :=
  if s.pos + 4 ≤ s.size then
    .ok (s.le32 s.pos, ⟨s.data, s.pos + 4⟩)
  else
    .error "XSB: read past end of stream"

/-- Modelled from the spec: bounds-checked `readUint32BE` (used only for
the magic tag). -/
def readUint32BE (s : ByteStream) : Except String (Nat × ByteStream) :=
  if s.pos + 4 ≤ s.size then
    .ok (s.be32 s.pos, ⟨s.data, s.pos + 4⟩)
  else
    .error "XSB: read past end of stream"

/-- Modelled from the spec: `readIEEEFloatLE` consumes four bytes; the
value is kept as the raw 32-bit word (no claim inspects the float). -/
def readIEEEFloatLE (s : ByteStream) : Except String (Nat × ByteStream) :=
  readUint32LE s

/-- Modelled from the spec: `skip(n)` advances the position by `n` bytes
and fails if that passes the end of the buffer; the position is never
clamped. -/
def skip (n : Nat) (s : ByteStream) : Except String (Unit × ByteStream) :=
  if s.pos + n ≤ s.size then
    .ok ((), ⟨s.data, s.pos + n⟩)
  else
    .error "XSB: skip past end of stream"

/-- Modelled from the spec: `seek(p)` moves the position to the absolute
offset `p` and fails if `p` lies outside the buffer; the target is never
clamped into range. -/
def seek (p : Nat) (s : ByteStream) : Except String (Unit × ByteStream) :=
  if p ≤ s.size then
    .ok ((), ⟨s.data, p⟩)
  else
    .error "XSB: seek past end of stream"

/-- ASCII decoding of a byte list up to the first NUL. -/
def asciiZ (l : List Nat) : String :=
  String.mk ((l.takeWhile (fun b => b ≠ 0)).map (fun b => Char.ofNat (b % 256)))

/-- Modelled from the spec: `readStringFixed` with a fixed width of 16
bytes and ASCII encoding: consumes exactly 16 bytes, the value is the
prefix before the first NUL. -/
def readStringFixed16 (s : ByteStream) : Except String (String × ByteStream) :=
  if s.pos + 16 ≤ s.size then
    .ok (asciiZ ((s.data.drop s.pos).take 16 |>.map (· % 256)), ⟨s.data, s.pos + 16⟩)
  else
    .error "XSB: read past end of stream"

/-- Helper for `readString`: read characters until a NUL terminator or the
end of the stream, with explicit fuel. -/
def readStringLoop (fuel : Nat) (acc : List Char) (s : ByteStream) :
    Except String (String × ByteStream) :=
  match fuel with
  | 0 => .ok (String.mk acc.reverse, s)
  | fuel + 1 =>
    if s.pos + 1 ≤ s.size then
      let b := s.byteAt s.pos
      let s' : ByteStream := ⟨s.data, s.pos + 1⟩
      if b = 0 then .ok (String.mk acc.reverse, s')
      else readStringLoop fuel (Char.ofNat b :: acc) s'
    else .ok (String.mk acc.reverse, s)

/-- Modelled from the spec: `readString` with ASCII encoding: reads a
NUL-terminated string, stopping at the terminator or the end of the
stream. -/
def readString (s : ByteStream) : Except String (String × ByteStream) :=
  readStringLoop (s.size - s.pos) [] s

/-! ## Constants (from `xactsoundbank_binary.cpp`) -/

def k3DDefinitionSize : Nat := 40
def kCueDefinitionSize : Nat := 20
def kSoundDefinitionSize : Nat := 20
def kTrackDefinitionSize : Nat := 4

/-- Enum `XSBFlags`: global header flags. -/
def kXSBNoCueNames : Nat := 1

/-- Enum `SoundFlags`: per-sound flag byte bits. -/
def kSound3D : Nat := 0x01
def kSoundGainBoost : Nat := 0x02
def kSoundEQ : Nat := 0x04
def kSoundTrivial : Nat := 0x08
def kSoundSimple : Nat := 0x10

/-- Enum `PlayEventFlags`. -/
def kPlayEventMultipleVariations : Nat := 0x04

/-- Enum `PitchEventFlags` (also used by the Volume event branch). -/
def kPitchEventVariation : Nat := 0x04
def kPitchEventRelative : Nat := 0x10
def kPitchEventFade : Nat := 0x20

/-- Enum `LowPassEventFlags`. -/
def kLowPassEventRandom : Nat := 0x04
def kLowPassEventRelative : Nat := 0x10
def kLowPassEventSweep : Nat := 0x20

/-- Enum `MarkerEventFlags`. -/
def kMarkerEventRepeat : Nat := 0x20

/-- Modelled from the spec: the fixed legal range for variation weights
(`kWeightMinimum`/`kWeightMaximum`, declared in the sound-bank header
outside src; only `kWeightMinimum ≤ kWeightMaximum` matters to the
claims). -/
def kWeightMinimum : Nat := 0

/-- Modelled from the spec: upper end of the legal weight range. -/
def kWeightMaximum : Nat := 255

/-- Modelled from the spec: the "ordered" selection method tag
(`SelectMethod` is declared outside src; the value is only ever compared
against itself). -/
def kSelectMethodOrdered : Nat := 1

/-- Modelled from the spec: numeric tags of the event tagged-union
dispatch (`EventType`, declared in a header outside src).  The claims
never depend on the particular values, only on the dispatch being total
with an "unknown" default. -/
def kEventTypePlay : Nat := 0x00
def kEventTypePlayComplex : Nat := 0x01
def kEventTypePitch : Nat := 0x04
def kEventTypeVolume : Nat := 0x05
def kEventTypeLowPass : Nat := 0x07
def kEventTypeLFOMulti : Nat := 0x09
def kEventTypeLoop : Nat := 0x0E
def kEventTypeMarker : Nat := 0x0F

/-- Clamp `CLIP(v, min, max)` on naturals. -/
def clipNat (v lo hi : Nat) : Nat := max lo (min v hi)

/-! ## Data model

Mirrors the sound-bank entity structs.  Fields the C++ stores as floats
after a documented scale (and, where noted, a float clamp) are kept as
the raw fixed-point integers read from the stream; integral clamps are
applied exactly. -/

/-- A weighted alternative of a cue: `{soundIndex, weightMin, weightMax}`. -/
structure CueVariation where
  soundIndex : Nat := 0
  weightMin : Nat := 0
  weightMax : Nat := 0
deriving Repr, DecidableEq

/-- A cue: optional name, selection method, ordered variations. -/
structure Cue where
  name : String := ""
  variationSelectMethod : Nat := 0
  variations : List CueVariation := []
deriving Repr, DecidableEq

/-- A weighted wave alternative of a track: sound index within a wave
bank, the owning bank's name (empty when unresolved), and a weight
range. -/
structure WaveVariation where
  index : Nat := 0
  bank : String := ""
  weightMin : Nat := 0
  weightMax : Nat := 0
deriving Repr, DecidableEq

/-- Per-kind event payloads (the C++ `params` union; a variant only
carries the fields its decoder branch writes). -/
inductive EventParams where
  | blank
  | pitch (fadeStepCount : Nat) (isRelative enableFade enableVariation : Bool)
      (pitchStart pitchEnd : Int) (fadeDuration : Nat)
  | volume (fadeStepCount : Nat) (isRelative enableFade enableVariation : Bool)
      (volumeStart volumeEnd : Int) (fadeDuration : Nat)
  | lowpass (isRelative random sweepCutOff : Bool) (sweepStepCount : Nat)
      (cutOffStart cutOffEnd : Nat) (sweepDuration : Nat)
      (resonanceStart resonanceEnd : Int)
  | lfomulti (delta : Nat) (pitch filter amplitude : Int)
  | loop (count : Nat)
  | marker (doRepeat : Bool) (repeatCount : Nat) (value : Nat)
      (repeatDuration : Nat)
deriving Repr, DecidableEq

/-- A timed event: raw type tag, 24-bit timestamp, per-kind payload. -/
structure Event where
  type : Nat
  timestamp : Nat := 0
  params : EventParams := .blank
deriving Repr, DecidableEq

/-- A track: selection method, wave variations, ordered events. -/
structure Track where
  variationSelectMethod : Nat := 0
  waves : List WaveVariation := []
  events : List Event := []
deriving Repr, DecidableEq

instance : Inhabited Track := ⟨{}⟩

/-- The 3D spatialization parameters.  `volumeLFE` keeps the raw
`-((volume >> 9) & 0x7F)` value (C++ scales by `0.50f`); `volumeI3DL2`
keeps the raw byte (C++ computes `CLIP(-v * 2.56f, -64, 0)`);
`coneOutsideVolume` keeps the raw signed word (C++ scales by `1/100`
and clamps to `[-64, 0]`); the distance/factor fields keep the raw
IEEE-754 words; `rollOffCurve` keeps the raw bytes (C++ divides by
255). -/
structure Sound3DParams where
  volumeLFE : Int := 0
  volumeI3DL2 : Nat := 0
  coneInsideAngle : Nat := 0
  coneOutsideAngle : Nat := 0
  coneOutsideVolume : Int := 0
  distanceMin : Nat := 0
  distanceMax : Nat := 0
  distanceFactor : Nat := 0
  rollOffFactor : Nat := 0
  dopplerFactor : Nat := 0
  mode : Nat := 0
  rollOffCurve : List Nat := []
deriving Repr, DecidableEq

/-- A sound.  `volume` keeps the raw `-(packed & 0x1FF)` value (C++
scales by `0.16f`); `pitch` and the pitch-variation fields keep the raw
signed words (C++ scales by `12/4096` and clamps to `±24`); the
volume-variation fields keep the raw signed words (C++ scales by `1/100`
and clamps to `±64`); `parametricEQGain` keeps the raw signed word (C++
scales by `1/8192` and clamps to `[-1, 4]`); `parametricEQQ` keeps the
raw low three bits of the EQ word (C++ computes `1 / (1 << bits)`);
`parametricEQFreq` is clamped integrally exactly as the C++ does. -/
structure Sound where
  volume : Int := 0
  pitch : Int := 0
  pitchVariationMin : Int := 0
  pitchVariationMax : Int := 0
  volumeVariationMin : Int := 0
  volumeVariationMax : Int := 0
  delay : Nat := 0
  layer : Nat := 0
  categoryIndex : Nat := 0
  priority : Nat := 0
  parametricEQ : Bool := false
  parametricEQGain : Int := 0
  parametricEQQ : Nat := 0
  parametricEQFreq : Nat := 0
  gainBoost : Bool := false
  is3D : Bool := false
  params3D : Sound3DParams := {}
  tracks : List Track := []
deriving Repr, DecidableEq

instance : Inhabited Sound := ⟨{}⟩

/-- A wave bank reference: only its name. -/
structure WaveBank where
  name : String := ""
deriving Repr, DecidableEq

/-- The decoded sound bank.  The two lookup maps are association lists
with most-recent-first override semantics (mirroring `std::map`
insertion); `cueMap` maps a cue name to the cue's index. -/
structure SoundBank where
  name : String := ""
  waveBanks : List WaveBank := []
  waveBankMap : List (String × Nat) := []
  cues : List Cue := []
  cueMap : List (String × Nat) := []
  sounds : List Sound := []
deriving Repr, DecidableEq

/-! ## Decoder functions (from `xactsoundbank_binary.cpp`) -/

/-- Mirrors `readVariationData`: reads one 32-bit little-endian word and splits it
by shift/mask into `(count, current, selectMethod, flags)`. -/
def readVariationData (s : ByteStream) :
    Except String ((Nat × Nat × Nat × Nat) × ByteStream) := do
  let (variationData, s) ← readUint32LE s
  .ok ((variationData &&& 0x1FFF,
        (variationData >>> 17) &&& 0x1FFF,
        (variationData >>> 13) &&& 0x000F,
        variationData >>> 30), s)

/-- The wave variation built by `XACTSoundBank_Binary::addWaveVariation`:
the packed bank index (top 16 bits) is resolved against the loaded wave
banks (an out-of-range bank index leaves the name empty), each weight is
clamped to the legal range and the two are swapped if inverted. -/
def waveOf (waveBanks : List WaveBank) (indices weightMin weightMax : Nat) :
    WaveVariation :=
  let bankIndex := indices >>> 16
  let soundIndex := indices &&& 0xFFFF
  let bank := if h : bankIndex < waveBanks.length then
      (waveBanks.get ⟨bankIndex, h⟩).name
    else ""
  let wMin := clipNat weightMin kWeightMinimum kWeightMaximum
  let wMax := clipNat weightMax kWeightMinimum kWeightMaximum
  let pair := if wMin > wMax then (wMax, wMin) else (wMin, wMax)
  { index := soundIndex, bank := bank,
    weightMin := pair.1, weightMax := pair.2 }

/-- Mirrors `XACTSoundBank_Binary::addWaveVariation`: appends the wave variation
to the track. -/
def addWaveVariation (waveBanks : List WaveBank) (track : Track)
    (indices weightMin weightMax : Nat) : Track :=
  { track with waves := track.waves ++ [waveOf waveBanks indices weightMin weightMax] }

/-- Loop body of `readCueVarations`: reads `n` cue variations, each a
16-bit sound index, 2 unknown bytes, and two 16-bit weights (clamped to
the legal range, swapped when inverted). -/
def readCueVariationsLoop (n : Nat) (acc : List CueVariation) (s : ByteStream) :
    Except String (List CueVariation × ByteStream) :=
  match n with
  | 0 => .ok (acc, s)
  | n + 1 => do
    let (soundIndex, s) ← readUint16LE s
    let (_, s) ← skip 2 s
    let (w1, s) ← readUint16LE s
    let (w2, s) ← readUint16LE s
    let wMin := clipNat w1 kWeightMinimum kWeightMaximum
    let wMax := clipNat w2 kWeightMinimum kWeightMaximum
    let pair := if wMin > wMax then (wMax, wMin) else (wMin, wMax)
    readCueVariationsLoop n
      (acc ++ [{ soundIndex := soundIndex, weightMin := pair.1,
                 weightMax := pair.2 }]) s

/-- Mirrors `XACTSoundBank_Binary::readCueVarations` (source spelling): seeks to
the variation list, decodes the packed descriptor, then reads that many
variations into the cue. -/
def readCueVarations (cue : Cue) (offset : Nat) (s : ByteStream) :
    Except String (Cue × ByteStream) := do
  let (_, s) ← seek offset s
  let ((variationCount, _currentVariation, selectMethod, _flags), s) ←
    readVariationData s
  let (variations, s) ← readCueVariationsLoop variationCount [] s
  .ok ({ cue with variationSelectMethod := selectMethod,
                  variations := variations }, s)

/-- Loop body of `readWaveVariations`: reads `n` wave variations, each a
packed 32-bit index pair and two 16-bit weights, appended via
`addWaveVariation`. -/
def readWaveVariationsLoop (waveBanks : List WaveBank) (n : Nat)
    (track : Track) (s : ByteStream) : Except String (Track × ByteStream) :=
  match n with
  | 0 => .ok (track, s)
  | n + 1 => do
    let (indices, s) ← readUint32LE s
    let (weightMin, s) ← readUint16LE s
    let (weightMax, s) ← readUint16LE s
    readWaveVariationsLoop waveBanks n
      (addWaveVariation waveBanks track indices weightMin weightMax) s

/-- Mirrors `XACTSoundBank_Binary::readWaveVariations`: seeks to the wave
variation list, decodes the packed descriptor, then reads that many wave
variations into the track. -/
def readWaveVariations (waveBanks : List WaveBank) (track : Track)
    (offset : Nat) (s : ByteStream) : Except String (Track × ByteStream) := do
  let (_, s) ← seek offset s
  let ((variationCount, _currentVariation, selectMethod, _flags), s) ←
    readVariationData s
  readWaveVariationsLoop waveBanks variationCount
    { track with variationSelectMethod := selectMethod } s

/-- Loop body of `readWaveBanks`: reads `n` fixed 16-byte ASCII names,
building the bank list and the name lookup. -/
def readWaveBanksLoop (n : Nat) (banks : List WaveBank)
    (bankMap : List (String × Nat)) (s : ByteStream) :
    Except String (List WaveBank × List (String × Nat) × ByteStream) :=
  match n with
  | 0 => .ok (banks, bankMap, s)
  | n + 1 => do
    let (name, s) ← readStringFixed16 s
    readWaveBanksLoop n (banks ++ [{ name := name }])
      ((name, banks.length) :: bankMap) s

/-- Mirrors `XACTSoundBank_Binary::readWaveBanks`: seeks to the wave-bank table
and reads `count` fixed-width name records. -/
def readWaveBanks (offset count : Nat) (s : ByteStream) :
    Except String (List WaveBank × List (String × Nat) × ByteStream) := do
  let (_, s) ← seek offset s
  readWaveBanksLoop count [] [] s

/-- The optional name read of a cue record: only when the global "no cue
names" flag is unset and the name offset is not the sentinel
`0xFFFFFFFF`, seek there and read the NUL-terminated ASCII name,
registering it for the lookup. -/
def readCueName (xsbFlags offsetName : Nat) (s : ByteStream) :
    Except String (Cue × Option String × ByteStream) :=
  if (xsbFlags &&& kXSBNoCueNames) = 0 ∧ offsetName ≠ 0xFFFFFFFF then do
    let (_, s) ← seek offsetName s
    let (name, s) ← readString s
    .ok (({ name := name : Cue }), some name, s)
  else
    .ok (({} : Cue), none, s)

/-- The variation-list part of a cue record: an explicit list via the
entry offset when that is not the sentinel, else a single synthesized
ordered full-weight-range variation from the direct sound index unless
that too is the sentinel. -/
def readCueEntry (cue : Cue) (soundIndex offsetEntry : Nat)
    (s : ByteStream) : Except String (Cue × ByteStream) :=
  if offsetEntry ≠ 0xFFFFFFFF then
    readCueVarations cue offsetEntry s
  else if soundIndex ≠ 0xFFFF then
    .ok ({ cue with
           variationSelectMethod := kSelectMethodOrdered,
           variations := [{ soundIndex := soundIndex,
                            weightMin := kWeightMinimum,
                            weightMax := kWeightMaximum }] }, s)
  else
    .ok (cue, s)

/-- Body of one iteration of `XACTSoundBank_Binary::readCues`, after the
seek to the cue record: 2 unknown bytes, a 16-bit direct sound index, a
32-bit name offset, a 32-bit entry offset, 8 unknown bytes; then the
optional name read and the variation list. -/
def readCue (xsbFlags : Nat) (s : ByteStream) :
    Except String (Cue × Option String × ByteStream) := do
  let (_, s) ← skip 2 s
  let (soundIndex, s) ← readUint16LE s
  let (offsetName, s) ← readUint32LE s
  let (offsetEntry, s) ← readUint32LE s
  let (_, s) ← skip 4 s
  let (_, s) ← skip 4 s
  let (cue, registered, s) ← readCueName xsbFlags offsetName s
  let (cue, s) ← readCueEntry cue soundIndex offsetEntry s
  .ok (cue, registered, s)

/-- Loop body of `readCues`: for record `i` of `count`, seek to
`offset + i * kCueDefinitionSize` and decode the record. -/
def readCuesLoop (xsbFlags offset : Nat) (i n : Nat) (cues : List Cue)
    (cueMap : List (String × Nat)) (s : ByteStream) :
    Except String (List Cue × List (String × Nat) × ByteStream) :=
  match n with
  | 0 => .ok (cues, cueMap, s)
  | n + 1 => do
    let (_, s) ← seek (offset + i * kCueDefinitionSize) s
    let (cue, registered, s) ← readCue xsbFlags s
    let cueMap := match registered with
      | some name => (name, cues.length) :: cueMap
      | none => cueMap
    readCuesLoop xsbFlags offset (i + 1) n (cues ++ [cue]) cueMap s

/-- Mirrors `XACTSoundBank_Binary::readCues`. -/
def readCues (xsbFlags offset count : Nat) (s : ByteStream) :
    Except String (List Cue × List (String × Nat) × ByteStream) :=
  readCuesLoop xsbFlags offset 0 count [] [] s

/-- The Play/PlayComplex case of the event switch in
`XACTSoundBank_Binary::readComplexTrack`: skip 2 unused bytes; if at
least 4 declared payload bytes remain read the 32-bit indices-or-offset
(and, if 12 more remain, the pitch/volume variation bounds, the delay
and 2 unknown bytes, all into the sound); then either add a direct wave
variation to the track (ordered selection) or defer the offset as a
wave-variation-table offset.  Returns the event params, updated track,
sound and deferred offset, the not-yet-consumed declared payload size,
and the stream. -/
def readEventPlay (waveBanks : List WaveBank) (track : Track) (sound : Sound)
    (wavesOffset : Nat) (parameterSize eventFlags : Nat) (s : ByteStream) :
    Except String (EventParams × Track × Sound × Nat × Nat × ByteStream) := do
  let (_, s) ← skip 2 s
  if 4 ≤ parameterSize then do
    let (indicesOrOffset, s) ← readUint32LE s
    let parameterSize := parameterSize - 4
    let (sound, parameterSize, s) ←
      if 12 ≤ parameterSize then do
        let (pvMin, s) ← readSint16LE s
        let (pvMax, s) ← readSint16LE s
        let (vvMin, s) ← readSint16LE s
        let (vvMax, s) ← readSint16LE s
        let (delay, s) ← readUint16LE s
        let (_, s) ← skip 2 s
        .ok (({ sound with
                pitchVariationMin := pvMin, pitchVariationMax := pvMax,
                volumeVariationMin := vvMin, volumeVariationMax := vvMax,
                delay := delay }, parameterSize - 12, s))
      else
        .ok ((sound, parameterSize, s))
    if eventFlags &&& kPlayEventMultipleVariations = 0 then
      let track := { track with variationSelectMethod := kSelectMethodOrdered }
      let track := addWaveVariation waveBanks track indicesOrOffset
        kWeightMinimum kWeightMaximum
      .ok (.blank, track, sound, wavesOffset, parameterSize, s)
    else
      .ok (.blank, track, sound, indicesOrOffset, parameterSize, s)
  else
    .ok (.blank, track, sound, wavesOffset, parameterSize, s)

/-- The Pitch case of the event switch: 16-bit fade-step count, flag
bits, then (with at least 8 declared payload bytes) start/end pitch,
1 unknown byte and a 24-bit fade duration. -/
def readEventPitch (parameterSize eventFlags : Nat) (s : ByteStream) :
    Except String (EventParams × Nat × ByteStream) := do
  let (fadeStepCount, s) ← readUint16LE s
  let isRelative := (eventFlags &&& kPitchEventRelative) != 0
  let enableFade := (eventFlags &&& kPitchEventFade) != 0
  let enableVariation := (eventFlags &&& kPitchEventVariation) != 0
  if 8 ≤ parameterSize then do
    let (pitchStart, s) ← readSint16LE s
    let (pitchEnd, s) ← readSint16LE s
    let (_, s) ← skip 1 s
    let (f0, s) ← readByte s
    let (f1, s) ← readByte s
    let (f2, s) ← readByte s
    .ok (.pitch fadeStepCount isRelative enableFade enableVariation
          pitchStart pitchEnd (f0 + f1 * 256 + f2 * 65536),
         parameterSize - 8, s)
  else
    .ok (.pitch fadeStepCount isRelative enableFade enableVariation 0 0 0,
         parameterSize, s)

/-- The Volume case of the event switch (the C++ reads the flag bits
from the Pitch flag constants). -/
def readEventVolume (parameterSize eventFlags : Nat) (s : ByteStream) :
    Except String (EventParams × Nat × ByteStream) := do
  let (fadeStepCount, s) ← readUint16LE s
  let isRelative := (eventFlags &&& kPitchEventRelative) != 0
  let enableFade := (eventFlags &&& kPitchEventFade) != 0
  let enableVariation := (eventFlags &&& kPitchEventVariation) != 0
  if 8 ≤ parameterSize then do
    let (volumeStart, s) ← readSint16LE s
    let (volumeEnd, s) ← readSint16LE s
    let (_, s) ← skip 1 s
    let (f0, s) ← readByte s
    let (f1, s) ← readByte s
    let (f2, s) ← readByte s
    .ok (.volume fadeStepCount isRelative enableFade enableVariation
          volumeStart volumeEnd (f0 + f1 * 256 + f2 * 65536),
         parameterSize - 8, s)
  else
    .ok (.volume fadeStepCount isRelative enableFade enableVariation 0 0 0,
         parameterSize, s)

/-- The LowPass case of the event switch: flag bits, 16-bit sweep-step
count, then (with at least 12 declared payload bytes) the clamped
cutoffs, 1 unknown byte, a 24-bit sweep duration and the resonance
bounds. -/
def readEventLowPass (parameterSize eventFlags : Nat) (s : ByteStream) :
    Except String (EventParams × Nat × ByteStream) := do
  let isRelative := (eventFlags &&& kLowPassEventRelative) != 0
  let random := (eventFlags &&& kLowPassEventRandom) != 0
  let sweepCutOff := (eventFlags &&& kLowPassEventSweep) != 0
  let (sweepStepCount, s) ← readUint16LE s
  if 12 ≤ parameterSize then do
    let (cutOffStart, s) ← readUint16LE s
    let (cutOffEnd, s) ← readUint16LE s
    let (_, s) ← skip 1 s
    let (f0, s) ← readByte s
    let (f1, s) ← readByte s
    let (f2, s) ← readByte s
    let (resonanceStart, s) ← readSint16LE s
    let (resonanceEnd, s) ← readSint16LE s
    .ok (.lowpass isRelative random sweepCutOff sweepStepCount
          (clipNat cutOffStart 0 8192) (clipNat cutOffEnd 0 8192)
          (f0 + f1 * 256 + f2 * 65536) resonanceStart resonanceEnd,
         parameterSize - 12, s)
  else
    .ok (.lowpass isRelative random sweepCutOff sweepStepCount 0 0 0 0 0,
         parameterSize, s)

/-- The LFOMulti case of the event switch: skip 2 unused bytes, then
(with at least 6 declared payload bytes) skip 2 unknown bytes and read
the delta/pitch/filter/amplitude bytes. -/
def readEventLFOMulti (parameterSize : Nat) (s : ByteStream) :
    Except String (EventParams × Nat × ByteStream) := do
  let (_, s) ← skip 2 s
  if 6 ≤ parameterSize then do
    let (_, s) ← skip 2 s
    let (delta, s) ← readByte s
    let (pitch, s) ← readSByte s
    let (filter, s) ← readSByte s
    let (amplitude, s) ← readSByte s
    .ok (.lfomulti delta pitch filter amplitude, parameterSize - 6, s)
  else
    .ok (.lfomulti 0 0 0 0, parameterSize, s)

/-- The Loop case of the event switch: a 16-bit repeat count. -/
def readEventLoop (parameterSize : Nat) (s : ByteStream) :
    Except String (EventParams × Nat × ByteStream) := do
  let (count, s) ← readUint16LE s
  .ok (.loop count, parameterSize, s)

/-- The Marker case of the event switch: a repeat flag bit, a 16-bit
repeat count, then (with at least 8 declared payload bytes) a 32-bit
marker value, 1 unknown byte and a 24-bit repeat duration. -/
def readEventMarker (parameterSize eventFlags : Nat) (s : ByteStream) :
    Except String (EventParams × Nat × ByteStream) := do
  let doRepeat := (eventFlags &&& kMarkerEventRepeat) != 0
  let (repeatCount, s) ← readUint16LE s
  if 8 ≤ parameterSize then do
    let (value, s) ← readUint32LE s
    let (_, s) ← skip 1 s
    let (f0, s) ← readByte s
    let (f1, s) ← readByte s
    let (f2, s) ← readByte s
    .ok (.marker doRepeat repeatCount value (f0 + f1 * 256 + f2 * 65536),
         parameterSize - 8, s)
  else
    .ok (.marker doRepeat repeatCount 0 0, parameterSize, s)

/-- The default case of the event switch (unknown type tags): skip 2
unknown bytes and rely on the declared-size skip. -/
def readEventDefault (parameterSize : Nat) (s : ByteStream) :
    Except String (EventParams × Nat × ByteStream) := do
  let (_, s) ← skip 2 s
  .ok (.blank, parameterSize, s)

/-- One iteration of the event loop in
`XACTSoundBank_Binary::readComplexTrack`: reads one event record header
(1-byte type tag, 24-bit little-endian timestamp, 1-byte declared
parameter size, 1-byte event flags), dispatches on the type tag, appends
the decoded event to the track, and finally skips whatever the branch
left of the declared parameter size. -/
def readEvent (waveBanks : List WaveBank) (track : Track) (sound : Sound)
    (wavesOffset : Nat) (s : ByteStream) :
    Except String (Track × Sound × Nat × ByteStream) := do
  let (typeTag, s) ← readByte s
  let (t0, s) ← readByte s
  let (t1, s) ← readByte s
  let (t2, s) ← readByte s
  let timestamp := t0 + t1 * 256 + t2 * 65536
  let (parameterSize, s) ← readByte s
  let (eventFlags, s) ← readByte s
  let (params, track, sound, wavesOffset, leftover, s) ←
    if typeTag = kEventTypePlay ∨ typeTag = kEventTypePlayComplex then
      readEventPlay waveBanks track sound wavesOffset parameterSize eventFlags s
    else do
      let (params, leftover, s) ←
        if typeTag = kEventTypePitch then
          readEventPitch parameterSize eventFlags s
        else if typeTag = kEventTypeVolume then
          readEventVolume parameterSize eventFlags s
        else if typeTag = kEventTypeLowPass then
          readEventLowPass parameterSize eventFlags s
        else if typeTag = kEventTypeLFOMulti then
          readEventLFOMulti parameterSize s
        else if typeTag = kEventTypeLoop then
          readEventLoop parameterSize s
        else if typeTag = kEventTypeMarker then
          readEventMarker parameterSize eventFlags s
        else
          readEventDefault parameterSize s
      .ok ((params, track, sound, wavesOffset, leftover, s))
  let (_, s) ← skip leftover s
  .ok ({ track with
         events := track.events ++
           [{ type := typeTag, timestamp := timestamp, params := params }] },
       sound, wavesOffset, s)

/-- The event loop of `readComplexTrack`: decodes `n` events in
sequence, threading the track, the sound, and the deferred
wave-variation-table offset. -/
def readEvents (waveBanks : List WaveBank) (n : Nat) (track : Track)
    (sound : Sound) (wavesOffset : Nat) (s : ByteStream) :
    Except String (Track × Sound × Nat × ByteStream) :=
  match n with
  | 0 => .ok (track, sound, wavesOffset, s)
  | n + 1 => do
    let (track, sound, wavesOffset, s) ←
      readEvent waveBanks track sound wavesOffset s
    readEvents waveBanks n track sound wavesOffset s

/-- Mirrors `XACTSoundBank_Binary::readComplexTrack`: reads the 32-bit track word
(low 8 bits event count, high bits events-table offset), seeks to the
events table, decodes the events, and finally resolves the deferred
wave-variation-table offset if one was captured. -/
def readComplexTrack (waveBanks : List WaveBank) (track : Track)
    (sound : Sound) (s : ByteStream) :
    Except String (Track × Sound × ByteStream) := do
  let (trackData, s) ← readUint32LE s
  let eventCount := trackData &&& 0xFF
  let eventsOffset := trackData >>> 8
  let (_, s) ← seek eventsOffset s
  let (track, sound, wavesOffset, s) ←
    readEvents waveBanks eventCount track sound 0xFFFFFFFF s
  if wavesOffset ≠ 0xFFFFFFFF then do
    let (track, s) ← readWaveVariations waveBanks track wavesOffset s
    .ok (track, sound, s)
  else
    .ok (track, sound, s)

/-- The complex-sound loop of `readTracks`: for track `i` of `count`,
seek to `indicesOrOffset + i * kTrackDefinitionSize` and decode the
track. -/
def readComplexTracksLoop (waveBanks : List WaveBank) (indicesOrOffset : Nat)
    (i n : Nat) (tracks : List Track) (sound : Sound) (s : ByteStream) :
    Except String (List Track × Sound × ByteStream) :=
  match n with
  | 0 => .ok (tracks, sound, s)
  | n + 1 => do
    let (_, s) ← seek (indicesOrOffset + i * kTrackDefinitionSize) s
    let (track, sound, s) ← readComplexTrack waveBanks {} sound s
    readComplexTracksLoop waveBanks indicesOrOffset (i + 1) n
      (tracks ++ [track]) sound s

/-- Mirrors `XACTSoundBank_Binary::readTracks`: rejects a trivial/simple sound
whose declared track count is not 1; synthesizes the single track of a
trivial sound; reads the wave-variation table of a simple sound; decodes
`count` complex tracks otherwise. -/
def readTracks (waveBanks : List WaveBank) (sound : Sound)
    (indicesOrOffset count flags : Nat) (s : ByteStream) :
    Except String (Sound × ByteStream) :=
  if (flags &&& (kSoundTrivial ||| kSoundSimple)) ≠ 0 ∧ count ≠ 1 then
    .error "XACTSoundBank_Binary::readTracks(): Trivial/simple sound, but trackCount == count"
  else if (flags &&& kSoundTrivial) ≠ 0 then
    -- One track, one event, one wave variation
    let track : Track := { variationSelectMethod := kSelectMethodOrdered }
    let track := addWaveVariation waveBanks track indicesOrOffset
      kWeightMinimum kWeightMaximum
    let track := { track with events := track.events ++ [{ type := kEventTypePlay }] }
    .ok ({ sound with tracks := [track] }, s)
  else if (flags &&& kSoundSimple) ≠ 0 then do
    -- One track, one event, multiple wave variations
    let (track, s) ← readWaveVariations waveBanks {} indicesOrOffset s
    let track := { track with events := track.events ++ [{ type := kEventTypePlay }] }
    .ok ({ sound with tracks := [track] }, s)
  else do
    -- Complex
    let (tracks, sound, s) ←
      readComplexTracksLoop waveBanks indicesOrOffset 0 count [] sound s
    .ok ({ sound with tracks := tracks }, s)

/-- Rolloff-curve loop of `readSounds`: reads `n` raw curve bytes. -/
def readRollOffLoop (n : Nat) (acc : List Nat) (s : ByteStream) :
    Except String (List Nat × ByteStream) :=
  match n with
  | 0 => .ok (acc, s)
  | n + 1 => do
    let (b, s) ← readByte s
    readRollOffLoop n (acc ++ [b]) s

/-- The 3D-parameter block read of `readSounds`, entered when the sound
has the 3D flag: seek to `offset3DParams + index3DParam * 40` and decode
the `Sound3DParams` block (angles clamped to `[0, 360]` integrally; the
LFE volume keeps the raw `-((volume >> 9) & 0x7F)`; the rolloff-curve
byte count is clamped to at most 10). -/
def read3DParams (volume volume3D : Nat) (sound : Sound)
    (offset3DParams index3DParam : Nat) (s : ByteStream) :
    Except String (Sound × ByteStream) := do
  let (_, s) ← seek (offset3DParams + index3DParam * k3DDefinitionSize) s
  let (coneInsideAngle, s) ← readUint16LE s
  let (coneOutsideAngle, s) ← readUint16LE s
  let (coneOutsideVolume, s) ← readSint16LE s
  let (_, s) ← skip 2 s
  let (distanceMin, s) ← readIEEEFloatLE s
  let (distanceMax, s) ← readIEEEFloatLE s
  let (distanceFactor, s) ← readIEEEFloatLE s
  let (rollOffFactor, s) ← readIEEEFloatLE s
  let (dopplerFactor, s) ← readIEEEFloatLE s
  let (mode, s) ← readByte s
  let (curveLen, s) ← readByte s
  let rollOffCurveSize := clipNat curveLen 0 10
  let (rollOffCurve, s) ← readRollOffLoop rollOffCurveSize [] s
  .ok (({ sound with params3D := {
            volumeLFE := -((((volume >>> 9) &&& 0x7F) : Nat) : Int),
            volumeI3DL2 := volume3D,
            coneInsideAngle := clipNat coneInsideAngle 0 360,
            coneOutsideAngle := clipNat coneOutsideAngle 0 360,
            coneOutsideVolume := coneOutsideVolume,
            distanceMin := distanceMin,
            distanceMax := distanceMax,
            distanceFactor := distanceFactor,
            rollOffFactor := rollOffFactor,
            dopplerFactor := dopplerFactor,
            mode := mode,
            rollOffCurve := rollOffCurve } }, s))

/-- Body of one iteration of `XACTSoundBank_Binary::readSounds`, after
the seek to the 20-byte sound record: decodes the packed fields, then
the optional 3D-parameter block, then hands off to `readTracks`. -/
def readSound (waveBanks : List WaveBank) (offset3DParams : Nat)
    (s : ByteStream) : Except String (Sound × ByteStream) := do
  let (indicesOrOffset, s) ← readUint32LE s
  let (volume, s) ← readUint16LE s
  let (pitch, s) ← readSint16LE s
  let (trackCount, s) ← readByte s
  let (layer, s) ← readByte s
  let (categoryIndex, s) ← readByte s
  let (soundFlags, s) ← readByte s
  let (index3DParam, s) ← readUint16LE s
  let (priority, s) ← readByte s
  let (volume3D, s) ← readByte s
  let (eqGain, s) ← readSint16LE s
  let (eq, s) ← readUint16LE s
  let sound : Sound := {
    volume := -(((volume &&& 0x1FF) : Nat) : Int),
    pitch := pitch,
    layer := layer,
    categoryIndex := categoryIndex,
    priority := priority,
    parametricEQ := (soundFlags &&& kSoundEQ) != 0,
    parametricEQGain := eqGain,
    parametricEQQ := eq &&& 7,
    parametricEQFreq := clipNat ((eq >>> 3) &&& 0x1FFF) 30 8000,
    gainBoost := (soundFlags &&& kSoundGainBoost) != 0,
    is3D := (soundFlags &&& kSound3D) != 0 }
  let (sound, s) ←
    if (soundFlags &&& kSound3D) ≠ 0 then
      read3DParams volume volume3D sound offset3DParams index3DParam s
    else
      .ok ((sound, s))
  readTracks waveBanks sound indicesOrOffset trackCount soundFlags s

/-- Loop body of `readSounds`: for record `i` of `count`, seek to
`offset + i * kSoundDefinitionSize` and decode the record. -/
def readSoundsLoop (waveBanks : List WaveBank) (offset offset3DParams : Nat)
    (i n : Nat) (sounds : List Sound) (s : ByteStream) :
    Except String (List Sound × ByteStream) :=
  match n with
  | 0 => .ok (sounds, s)
  | n + 1 => do
    let (_, s) ← seek (offset + i * kSoundDefinitionSize) s
    let (sound, s) ← readSound waveBanks offset3DParams s
    readSoundsLoop waveBanks offset offset3DParams (i + 1) n
      (sounds ++ [sound]) s

/-- Mirrors `XACTSoundBank_Binary::readSounds`. -/
def readSounds (waveBanks : List WaveBank) (offset count offset3DParams : Nat)
    (s : ByteStream) : Except String (List Sound × ByteStream) :=
  readSoundsLoop waveBanks offset offset3DParams 0 count [] s

/-- Tag `MKTAG('S', 'D', 'B', 'K')`, compared against the big-endian magic. -/
def kXSBID : Nat := 0x5344424B

/-- Mirrors `XACTSoundBank_Binary::load`, the whole decode: header validation
(magic, version), table offsets and counts, then the wave-bank, cue and
sound tables.  The entry-point contract `decode(buffer) → SoundBank |
FormatError` is `load ⟨buffer, 0⟩`. -/
def load (s : ByteStream) : Except String SoundBank := do
  let (id, s) ← readUint32BE s
  if id ≠ kXSBID then
    throw "Not a XSB file"
  let (version, s) ← readUint16LE s
  if version ≠ 11 then
    throw "Unsupported XSB file version"
  let (_, s) ← skip 2 s
  let (offsetWaveBanks, s) ← readUint32LE s
  let (_offset2, s) ← readUint32LE s
  let (offset3DParams, s) ← readUint32LE s
  let (_offset4, s) ← readUint32LE s
  let (xsbFlags, s) ← readUint16LE s
  let (_count1, s) ← readUint16LE s
  let (soundCount, s) ← readUint16LE s
  let (cueCount, s) ← readUint16LE s
  let (_count4, s) ← readUint16LE s
  let (bankCount, s) ← readUint16LE s
  let (_, s) ← skip 4 s
  let (name, s) ← readStringFixed16 s
  let offsetCues := s.pos
  let offsetSounds := offsetCues + cueCount * kCueDefinitionSize
  let (waveBanks, waveBankMap, s) ← readWaveBanks offsetWaveBanks bankCount s
  let (cues, cueMap, s) ← readCues xsbFlags offsetCues cueCount s
  let (sounds, _s) ← readSounds waveBanks offsetSounds soundCount offset3DParams s
  .ok { name := name, waveBanks := waveBanks, waveBankMap := waveBankMap,
        cues := cues, cueMap := cueMap, sounds := sounds }

/-- The external entry point: decode a raw byte buffer. -/
def decode (buffer : List Nat) : Except String SoundBank :=
  load ⟨buffer, 0⟩

/-! ## Derived value helpers and invariant predicates -/

/-- The signed 16-bit little-endian value at position `i`. -/
def ByteStream.sint16 (s : ByteStream) (i : Nat) : Int :=
  if s.le16 i < 32768 then (s.le16 i : Int) else (s.le16 i : Int) - 65536

/-- The signed byte value at position `i`. -/
def ByteStream.sint8 (s : ByteStream) (i : Nat) : Int :=
  if s.byteAt i < 128 then (s.byteAt i : Int) else (s.byteAt i : Int) - 256

/-- The byte at index `i` of a raw buffer (0 when out of range). -/
def byteD (d : List Nat) (i : Nat) : Nat := d.getD i 0 % 256

/-- The unsigned 16-bit little-endian value at index `i` of a raw
buffer. -/
def le16D (d : List Nat) (i : Nat) : Nat := byteD d i + byteD d (i + 1) * 256

/-- The unsigned 32-bit little-endian value at index `i` of a raw
buffer. -/
def le32D (d : List Nat) (i : Nat) : Nat :=
  byteD d i + byteD d (i + 1) * 256 + byteD d (i + 2) * 65536 +
    byteD d (i + 3) * 16777216

/-- The unsigned 32-bit big-endian value at index `i` of a raw buffer. -/
def be32D (d : List Nat) (i : Nat) : Nat :=
  byteD d i * 16777216 + byteD d (i + 1) * 65536 + byteD d (i + 2) * 256 +
    byteD d (i + 3)

/-- The signed 16-bit little-endian value at index `i` of a raw buffer. -/
def sint16D (d : List Nat) (i : Nat) : Int :=
  if le16D d i < 32768 then (le16D d i : Int) else (le16D d i : Int) - 65536

/-- The signed byte value at index `i` of a raw buffer. -/
def sint8D (d : List Nat) (i : Nat) : Int :=
  if byteD d i < 128 then (byteD d i : Int) else (byteD d i : Int) - 256

/-- An event record at position `p` ends `8 + declared parameter size`
bytes later: 6 header bytes (tag, 24-bit timestamp, parameter size, event
flags), a fixed 2-byte field every branch consumes without deducting it
from the parameter size, and the declared parameter size itself. -/
def nextEventPos (d : List Nat) (p : Nat) : Nat := p + 8 + byteD d (p + 4)

/-- Position of event `i` of a sequence of records starting at `p`. -/
def eventPosIter (d : List Nat) (p : Nat) : Nat → Nat
  | 0 => p
  | i + 1 => eventPosIter d (nextEventPos d p) i

/-- Whether the event record at position `p` captures a deferred
wave-variation-table offset: a Play/PlayComplex tag with at least 4
declared payload bytes and the multiple-variations flag set. -/
def capturesAt (d : List Nat) (p : Nat) : Prop :=
  (byteD d p = kEventTypePlay ∨ byteD d p = kEventTypePlayComplex) ∧
    4 ≤ byteD d (p + 4) ∧ byteD d (p + 5) &&& kPlayEventMultipleVariations ≠ 0

instance (d : List Nat) (p : Nat) : Decidable (capturesAt d p) := by
  unfold capturesAt; infer_instance

/-- The deferred wave-variation-table offset left after processing `n`
event records starting at position `p`, beginning from `wo`: each
capturing record overwrites the value with the 32-bit word at its
payload start (`p + 8`). -/
def captureFold (d : List Nat) (p : Nat) (n : Nat) (wo : Nat) : Nat :=
  match n with
  | 0 => wo
  | n + 1 =>
    captureFold d (nextEventPos d p) n
      (if capturesAt d p then le32D d (p + 8) else wo)

/-- The weight-range invariant of claim C4:
`kWeightMinimum ≤ min ≤ max ≤ kWeightMaximum`. -/
def WeightOK (mn mx : Nat) : Prop :=
  kWeightMinimum ≤ mn ∧ mn ≤ mx ∧ mx ≤ kWeightMaximum

instance (mn mx : Nat) : Decidable (WeightOK mn mx) := by
  unfold WeightOK; infer_instance

/-- All wave variations of a track satisfy the weight invariant. -/
def TrackWeightsOK (t : Track) : Prop :=
  ∀ w ∈ t.waves, WeightOK w.weightMin w.weightMax

/-- All cue variations of a cue satisfy the weight invariant. -/
def CueWeightsOK (c : Cue) : Prop :=
  ∀ v ∈ c.variations, WeightOK v.weightMin v.weightMax

/-- All tracks of a sound satisfy the weight invariant. -/
def SoundWeightsOK (snd : Sound) : Prop :=
  ∀ t ∈ snd.tracks, TrackWeightsOK t

/-- Every variation (cue-level and wave-level) of a decoded bank
satisfies the weight invariant. -/
def BankWeightsOK (b : SoundBank) : Prop :=
  (∀ c ∈ b.cues, CueWeightsOK c) ∧ (∀ snd ∈ b.sounds, SoundWeightsOK snd)

/-! ## Concrete example buffers -/

/-- Little-endian 16-bit byte encoding. -/
def le2 (n : Nat) : List Nat := [n % 256, n / 256 % 256]

/-- Little-endian 32-bit byte encoding. -/
def le4 (n : Nat) : List Nat :=
  [n % 256, n / 256 % 256, n / 65536 % 256, n / 16777216 % 256]

/-- A well-formed 56-byte XSB header (magic `SDBK`, version 11, bank name
`TEST`) with the given table offsets, flags and counts. -/
def xsbHeader (offWaveBanks offset3D xsbFlags soundCount cueCount
    bankCount : Nat) : List Nat :=
  [0x53, 0x44, 0x42, 0x4B, 11, 0, 0, 0] ++
  le4 offWaveBanks ++ le4 0 ++ le4 offset3D ++ le4 0 ++
  le2 xsbFlags ++ le2 0 ++ le2 soundCount ++ le2 cueCount ++ le2 0 ++
  le2 bankCount ++ [0, 0, 0, 0] ++
  [0x54, 0x45, 0x53, 0x54, 0, 0, 0, 0, 0, 0, 0, 0, 0, 0, 0, 0]

/-- One event record: Play tag, timestamp 0, declared parameter size 6,
flags 0 (single variation); the type-specific decoder consumes 4 payload
bytes (the indices word 1) and the declared-size skip eats 2 more. -/
def exBufC1 : List Nat := [0, 0, 0, 0, 6, 0, 9, 9, 1, 0, 0, 0, 7, 7]

/-- One 20-byte cue record: direct sound index sentinel `0xFFFF`, name
offset 1000 (non-sentinel, far outside the buffer), entry offset
sentinel. -/
def exBufC7 : List Nat :=
  [0, 0, 0xFF, 0xFF] ++ le4 1000 ++ le4 0xFFFFFFFF ++
  [0, 0, 0, 0, 0, 0, 0, 0]

/-- One 20-byte cue record: direct sound index 5, name and entry offsets
both the sentinel. -/
def exBufC8 : List Nat :=
  [0, 0, 5, 0] ++ le4 0xFFFFFFFF ++ le4 0xFFFFFFFF ++
  [0, 0, 0, 0, 0, 0, 0, 0]

/-- A complex track whose single event is a Play with the
multiple-variations flag and a captured indices word equal to the
sentinel `0xFFFFFFFF`: track word (events offset 4, count 1), one event
record, captured word. -/
def exBufC10 : List Nat :=
  [0x01, 0x04, 0, 0] ++ [0, 0, 0, 0, 4, 4, 0, 0] ++ le4 0xFFFFFFFF

/-- A complex track with two capturing Play events; the first captures
77, the last captures 28, where a wave-variation table (count 1,
selection method 2, indices 3, weights 10/20) is stored. -/
def exBufC10W : List Nat :=
  [0x02, 0x04, 0, 0] ++
  [0, 0, 0, 0, 4, 4, 0, 0] ++ le4 77 ++
  [0, 0, 0, 0, 4, 4, 0, 0] ++ le4 28 ++
  le4 16385 ++ le4 3 ++ le2 10 ++ le2 20

/-- Valid header, no tables, but the wave-bank table offset 1000 lies
outside the 56-byte buffer. -/
def exBufBadWaveBankOffset : List Nat := xsbHeader 1000 0 0 0 0 0

/-- One cue whose name offset 1000 lies outside the 76-byte buffer
(global flags clear, offset non-sentinel). -/
def exBufBadCueName : List Nat :=
  xsbHeader 56 0 0 0 1 0 ++
  ([0, 0, 0, 0] ++ le4 1000 ++ le4 0xFFFFFFFF ++ [0, 0, 0, 0, 0, 0, 0, 0])

/-- One cue whose variation-entry offset 1000 lies outside the buffer. -/
def exBufBadCueEntry : List Nat :=
  xsbHeader 56 0 0 0 1 0 ++
  ([0, 0, 0, 0] ++ le4 0xFFFFFFFF ++ le4 1000 ++ [0, 0, 0, 0, 0, 0, 0, 0])

/-- One simple sound whose wave-variation-table offset 1000 lies outside
the buffer. -/
def exBufBadSoundWaves : List Nat :=
  xsbHeader 56 0 0 1 0 0 ++
  (le4 1000 ++ [0, 0, 0, 0, 1, 0, 0, 0x10, 0, 0, 0, 0, 0, 0, 0, 0])

/-- One 3D sound whose 3D-parameter index points 40000 bytes past the
buffer. -/
def exBufBad3DIndex : List Nat :=
  xsbHeader 56 0 0 1 0 0 ++
  (le4 0 ++ [0, 0, 0, 0, 0, 0, 0, 0x01] ++ le2 1000 ++ [0, 0, 0, 0, 0, 0])

/-- One complex sound whose track-pointer offset 1000 lies outside the
buffer. -/
def exBufBadTrackPointer : List Nat :=
  xsbHeader 56 0 0 1 0 0 ++
  (le4 1000 ++ [0, 0, 0, 0, 1, 0, 0, 0, 0, 0, 0, 0, 0, 0, 0, 0])

/-- One complex sound whose single track declares an events-table offset
of 1000, outside the 80-byte buffer. -/
def exBufBadEventOffset : List Nat :=
  xsbHeader 56 0 0 1 0 0 ++
  (le4 76 ++ [0, 0, 0, 0, 1, 0, 0, 0, 0, 0, 0, 0, 0, 0, 0, 0]) ++
  le4 256001

/-- The full end-to-end scenario: one wave bank `MUSIC_BANK`, one cue
with a direct sound index 0, one trivial sound whose indices word packs
bank 0 and sound 7. -/
def exBufScenario : List Nat :=
  xsbHeader 96 0 0 1 1 1 ++
  ([0, 0, 0, 0] ++ le4 0xFFFFFFFF ++ le4 0xFFFFFFFF ++
    [0, 0, 0, 0, 0, 0, 0, 0]) ++
  (le4 7 ++ [0, 0, 0, 0, 1, 0, 0, 0x08, 0, 0, 0, 0, 0, 0, 0, 0]) ++
  [0x4D, 0x55, 0x53, 0x49, 0x43, 0x5F, 0x42, 0x41, 0x4E, 0x4B,
   0, 0, 0, 0, 0, 0]

/-- The sound bank decoded from `exBufScenario`. -/
def exScenarioBank : SoundBank :=
  { name := "TEST",
    waveBanks := [{ name := "MUSIC_BANK" }],
    waveBankMap := [("MUSIC_BANK", 0)],
    cues := [{ name := "",
               variationSelectMethod := kSelectMethodOrdered,
               variations := [{ soundIndex := 0, weightMin := kWeightMinimum,
                                weightMax := kWeightMaximum }] }],
    cueMap := [],
    sounds := [{ parametricEQFreq := 30,
                 tracks := [{ variationSelectMethod := kSelectMethodOrdered,
                              waves := [{ index := 7, bank := "MUSIC_BANK",
                                          weightMin := kWeightMinimum,
                                          weightMax := kWeightMaximum }],
                              events := [{ type := kEventTypePlay }] }] }] }

/-! ## Proof infrastructure: characterizations of the stream primitives -/

theorem bind_ok {ε α β : Type _} {x : Except ε α} {f : α → Except ε β}
    {b : β} : (x >>= f) = .ok b ↔ ∃ a, x = .ok a ∧ f a = .ok b := by
  cases x <;> simp [Bind.bind, Except.bind]

@[simp] theorem ok_bind {ε α β : Type _} (a : α) (f : α → Except ε β) :
    ((Except.ok a : Except ε α) >>= f) = f a := rfl

@[simp] theorem data_mk (d : List Nat) (p : Nat) :
    (⟨d, p⟩ : ByteStream).data = d := rfl

@[simp] theorem pos_mk (d : List Nat) (p : Nat) :
    (⟨d, p⟩ : ByteStream).pos = p := rfl

@[simp] theorem byteAt_def (s : ByteStream) (i : Nat) :
    s.byteAt i = byteD s.data i := rfl

@[simp] theorem size_def (s : ByteStream) :
    s.size = s.data.length := rfl

@[simp] theorem le16_def (s : ByteStream) (i : Nat) :
    s.le16 i = le16D s.data i := rfl

@[simp] theorem le32_def (s : ByteStream) (i : Nat) :
    s.le32 i = le32D s.data i := rfl

@[simp] theorem be32_def (s : ByteStream) (i : Nat) :
    s.be32 i = be32D s.data i := rfl

@[simp] theorem sint16_def (s : ByteStream) (i : Nat) :
    s.sint16 i = sint16D s.data i := rfl

@[simp] theorem sint8_def (s : ByteStream) (i : Nat) :
    s.sint8 i = sint8D s.data i := rfl

theorem readByte_ok {s : ByteStream} {a : Nat × ByteStream} :
    readByte s = .ok a ↔
      a = (s.byteAt s.pos, ⟨s.data, s.pos + 1⟩) ∧ s.pos + 1 ≤ s.size := by
  unfold readByte; split <;> simp_all [eq_comm]

theorem readSByte_ok {s : ByteStream} {a : Int × ByteStream} :
    readSByte s = .ok a ↔
      a = (s.sint8 s.pos, ⟨s.data, s.pos + 1⟩) ∧ s.pos + 1 ≤ s.size := by
  unfold readSByte ByteStream.sint8; split <;> simp_all [eq_comm]

theorem readUint16LE_ok {s : ByteStream} {a : Nat × ByteStream} :
    readUint16LE s = .ok a ↔
      a = (s.le16 s.pos, ⟨s.data, s.pos + 2⟩) ∧ s.pos + 2 ≤ s.size := by
  unfold readUint16LE; split <;> simp_all [eq_comm]

theorem readSint16LE_ok {s : ByteStream} {a : Int × ByteStream} :
    readSint16LE s = .ok a ↔
      a = (s.sint16 s.pos, ⟨s.data, s.pos + 2⟩) ∧ s.pos + 2 ≤ s.size := by
  unfold readSint16LE ByteStream.sint16; split <;> simp_all [eq_comm]

theorem readUint32LE_ok {s : ByteStream} {a : Nat × ByteStream} :
    readUint32LE s = .ok a ↔
      a = (s.le32 s.pos, ⟨s.data, s.pos + 4⟩) ∧ s.pos + 4 ≤ s.size := by
  unfold readUint32LE; split <;> simp_all [eq_comm]

theorem readUint32BE_ok {s : ByteStream} {a : Nat × ByteStream} :
    readUint32BE s = .ok a ↔
      a = (s.be32 s.pos, ⟨s.data, s.pos + 4⟩) ∧ s.pos + 4 ≤ s.size := by
  unfold readUint32BE; split <;> simp_all [eq_comm]

theorem readIEEEFloatLE_ok {s : ByteStream} {a : Nat × ByteStream} :
    readIEEEFloatLE s = .ok a ↔
      a = (s.le32 s.pos, ⟨s.data, s.pos + 4⟩) ∧ s.pos + 4 ≤ s.size :=
  readUint32LE_ok

theorem skip_ok {n : Nat} {s : ByteStream} {a : Unit × ByteStream} :
    skip n s = .ok a ↔
      a = ((), ⟨s.data, s.pos + n⟩) ∧ s.pos + n ≤ s.size := by
  unfold skip; split <;> simp_all [eq_comm]

theorem seek_ok {p : Nat} {s : ByteStream} {a : Unit × ByteStream} :
    seek p s = .ok a ↔ a = ((), ⟨s.data, p⟩) ∧ p ≤ s.size := by
  unfold seek; split <;> simp_all [eq_comm]

theorem readStringFixed16_ok {s : ByteStream} {a : String × ByteStream} :
    readStringFixed16 s = .ok a ↔
      a = (asciiZ ((s.data.drop s.pos).take 16 |>.map (fun b => b % 256)),
           ⟨s.data, s.pos + 16⟩) ∧ s.pos + 16 ≤ s.size := by
  unfold readStringFixed16; split <;> simp_all [eq_comm]

/-! ## Event decoder structural lemmas -/


@[simp] theorem waveOf_weightOK (wb : List WaveBank) (ind wmin wmax : Nat) :
    WeightOK (waveOf wb ind wmin wmax).weightMin
      (waveOf wb ind wmin wmax).weightMax := by
  unfold waveOf WeightOK clipNat kWeightMinimum kWeightMaximum
  dsimp only
  split <;> dsimp only <;> omega

@[simp] theorem addWaveVariation_waves (wb : List WaveBank) (t : Track)
    (i a b : Nat) :
    (addWaveVariation wb t i a b).waves = t.waves ++ [waveOf wb i a b] := rfl

@[simp] theorem addWaveVariation_select (wb : List WaveBank) (t : Track)
    (i a b : Nat) :
    (addWaveVariation wb t i a b).variationSelectMethod =
      t.variationSelectMethod := rfl

@[simp] theorem addWaveVariation_events (wb : List WaveBank) (t : Track)
    (i a b : Nat) :
    (addWaveVariation wb t i a b).events = t.events := rfl

theorem readEventPlay_spec {waveBanks : List WaveBank} {track : Track}
    {sound : Sound} {wavesOffset parameterSize eventFlags : Nat}
    {s : ByteStream} {r : EventParams × Track × Sound × Nat × Nat × ByteStream}
    (h : readEventPlay waveBanks track sound wavesOffset parameterSize
      eventFlags s = .ok r) :
    r.2.2.2.2.2.data = s.data ∧
    r.2.2.2.2.2.pos + r.2.2.2.2.1 = s.pos + 2 + parameterSize ∧
    r.2.2.2.1 = (if 4 ≤ parameterSize ∧
        eventFlags &&& kPlayEventMultipleVariations ≠ 0 then
      le32D s.data (s.pos + 2) else wavesOffset) ∧
    (∀ w ∈ r.2.1.waves, w ∈ track.waves ∨ WeightOK w.weightMin w.weightMax) ∧
    r.2.1.events = track.events := by
  unfold readEventPlay at h
  repeat'
    first
    | split at h
    | simp only [bind_ok, ok_bind, readByte_ok, readUint16LE_ok,
        readUint32LE_ok, readSint16LE_ok, readSByte_ok, skip_ok, seek_ok,
        byteAt_def, size_def, le16_def, le32_def, be32_def, sint16_def,
        sint8_def, data_mk, pos_mk, Prod.mk.injEq, Prod.exists,
        exists_eq_left, exists_eq_left', and_assoc, exists_and_left,
        addWaveVariation_waves, addWaveVariation_select, addWaveVariation_events,
        Except.ok.injEq] at h
  all_goals
    (repeat obtain ⟨-, h⟩ := h)
    dsimp only
    refine ⟨rfl, by omega, ?_, ?_, rfl⟩
    · split
      all_goals first | rfl | omega
    · intro w hw
      first
      | exact Or.inl hw
      | (simp only [addWaveVariation_waves, List.mem_append,
           List.mem_singleton] at hw
         rcases hw with hw | hw
         · exact Or.inl hw
         · subst hw; exact Or.inr (waveOf_weightOK _ _ _ _))

theorem readEventPitch_spec {parameterSize eventFlags : Nat} {s : ByteStream}
    {r : EventParams × Nat × ByteStream}
    (h : readEventPitch parameterSize eventFlags s = .ok r) :
    r.2.2.data = s.data ∧ r.2.2.pos + r.2.1 = s.pos + 2 + parameterSize := by
  unfold readEventPitch at h
  repeat'
    first
    | split at h
    | simp only [bind_ok, ok_bind, readByte_ok, readUint16LE_ok,
        readUint32LE_ok, readSint16LE_ok, readSByte_ok, skip_ok, seek_ok,
        byteAt_def, size_def, le16_def, le32_def, be32_def, sint16_def,
        sint8_def, data_mk, pos_mk, Prod.mk.injEq, Prod.exists,
        exists_eq_left, exists_eq_left', and_assoc, exists_and_left,
        addWaveVariation_waves, addWaveVariation_select, addWaveVariation_events,
        Except.ok.injEq] at h
  all_goals
    (repeat obtain ⟨-, h⟩ := h)
    dsimp only
    exact ⟨rfl, by omega⟩

theorem readEventVolume_spec {parameterSize eventFlags : Nat} {s : ByteStream}
    {r : EventParams × Nat × ByteStream}
    (h : readEventVolume parameterSize eventFlags s = .ok r) :
    r.2.2.data = s.data ∧ r.2.2.pos + r.2.1 = s.pos + 2 + parameterSize := by
  unfold readEventVolume at h
  repeat'
    first
    | split at h
    | simp only [bind_ok, ok_bind, readByte_ok, readUint16LE_ok,
        readUint32LE_ok, readSint16LE_ok, readSByte_ok, skip_ok, seek_ok,
        byteAt_def, size_def, le16_def, le32_def, be32_def, sint16_def,
        sint8_def, data_mk, pos_mk, Prod.mk.injEq, Prod.exists,
        exists_eq_left, exists_eq_left', and_assoc, exists_and_left,
        addWaveVariation_waves, addWaveVariation_select, addWaveVariation_events,
        Except.ok.injEq] at h
  all_goals
    (repeat obtain ⟨-, h⟩ := h)
    dsimp only
    exact ⟨rfl, by omega⟩

theorem readEventLowPass_spec {parameterSize eventFlags : Nat} {s : ByteStream}
    {r : EventParams × Nat × ByteStream}
    (h : readEventLowPass parameterSize eventFlags s = .ok r) :
    r.2.2.data = s.data ∧ r.2.2.pos + r.2.1 = s.pos + 2 + parameterSize := by
  unfold readEventLowPass at h
  repeat'
    first
    | split at h
    | simp only [bind_ok, ok_bind, readByte_ok, readUint16LE_ok,
        readUint32LE_ok, readSint16LE_ok, readSByte_ok, skip_ok, seek_ok,
        byteAt_def, size_def, le16_def, le32_def, be32_def, sint16_def,
        sint8_def, data_mk, pos_mk, Prod.mk.injEq, Prod.exists,
        exists_eq_left, exists_eq_left', and_assoc, exists_and_left,
        addWaveVariation_waves, addWaveVariation_select, addWaveVariation_events,
        Except.ok.injEq] at h
  all_goals
    (repeat obtain ⟨-, h⟩ := h)
    dsimp only
    exact ⟨rfl, by omega⟩

theorem readEventLFOMulti_spec {parameterSize : Nat} {s : ByteStream}
    {r : EventParams × Nat × ByteStream}
    (h : readEventLFOMulti parameterSize s = .ok r) :
    r.2.2.data = s.data ∧ r.2.2.pos + r.2.1 = s.pos + 2 + parameterSize := by
  unfold readEventLFOMulti at h
  repeat'
    first
    | split at h
    | simp only [bind_ok, ok_bind, readByte_ok, readUint16LE_ok,
        readUint32LE_ok, readSint16LE_ok, readSByte_ok, skip_ok, seek_ok,
        byteAt_def, size_def, le16_def, le32_def, be32_def, sint16_def,
        sint8_def, data_mk, pos_mk, Prod.mk.injEq, Prod.exists,
        exists_eq_left, exists_eq_left', and_assoc, exists_and_left,
        addWaveVariation_waves, addWaveVariation_select, addWaveVariation_events,
        Except.ok.injEq] at h
  all_goals
    (repeat obtain ⟨-, h⟩ := h)
    dsimp only
    exact ⟨rfl, by omega⟩

theorem readEventLoop_spec {parameterSize : Nat} {s : ByteStream}
    {r : EventParams × Nat × ByteStream}
    (h : readEventLoop parameterSize s = .ok r) :
    r.2.2.data = s.data ∧ r.2.2.pos + r.2.1 = s.pos + 2 + parameterSize := by
  unfold readEventLoop at h
  repeat'
    first
    | split at h
    | simp only [bind_ok, ok_bind, readByte_ok, readUint16LE_ok,
        readUint32LE_ok, readSint16LE_ok, readSByte_ok, skip_ok, seek_ok,
        byteAt_def, size_def, le16_def, le32_def, be32_def, sint16_def,
        sint8_def, data_mk, pos_mk, Prod.mk.injEq, Prod.exists,
        exists_eq_left, exists_eq_left', and_assoc, exists_and_left,
        addWaveVariation_waves, addWaveVariation_select, addWaveVariation_events,
        Except.ok.injEq] at h
  all_goals
    (repeat obtain ⟨-, h⟩ := h)
    dsimp only
    exact ⟨rfl, by omega⟩

theorem readEventMarker_spec {parameterSize eventFlags : Nat} {s : ByteStream}
    {r : EventParams × Nat × ByteStream}
    (h : readEventMarker parameterSize eventFlags s = .ok r) :
    r.2.2.data = s.data ∧ r.2.2.pos + r.2.1 = s.pos + 2 + parameterSize := by
  unfold readEventMarker at h
  repeat'
    first
    | split at h
    | simp only [bind_ok, ok_bind, readByte_ok, readUint16LE_ok,
        readUint32LE_ok, readSint16LE_ok, readSByte_ok, skip_ok, seek_ok,
        byteAt_def, size_def, le16_def, le32_def, be32_def, sint16_def,
        sint8_def, data_mk, pos_mk, Prod.mk.injEq, Prod.exists,
        exists_eq_left, exists_eq_left', and_assoc, exists_and_left,
        addWaveVariation_waves, addWaveVariation_select, addWaveVariation_events,
        Except.ok.injEq] at h
  all_goals
    (repeat obtain ⟨-, h⟩ := h)
    dsimp only
    exact ⟨rfl, by omega⟩

theorem readEventDefault_spec {parameterSize : Nat} {s : ByteStream}
    {r : EventParams × Nat × ByteStream}
    (h : readEventDefault parameterSize s = .ok r) :
    r.2.2.data = s.data ∧ r.2.2.pos + r.2.1 = s.pos + 2 + parameterSize := by
  unfold readEventDefault at h
  repeat'
    first
    | split at h
    | simp only [bind_ok, ok_bind, readByte_ok, readUint16LE_ok,
        readUint32LE_ok, readSint16LE_ok, readSByte_ok, skip_ok, seek_ok,
        byteAt_def, size_def, le16_def, le32_def, be32_def, sint16_def,
        sint8_def, data_mk, pos_mk, Prod.mk.injEq, Prod.exists,
        exists_eq_left, exists_eq_left', and_assoc, exists_and_left,
        addWaveVariation_waves, addWaveVariation_select, addWaveVariation_events,
        Except.ok.injEq] at h
  all_goals
    (repeat obtain ⟨-, h⟩ := h)
    dsimp only
    exact ⟨rfl, by omega⟩



set_option maxHeartbeats 1000000 in
theorem readEvent_spec {waveBanks : List WaveBank} {track : Track}
    {sound : Sound} {wavesOffset : Nat} {s : ByteStream} {track' : Track}
    {sound' : Sound} {wavesOffset' : Nat} {s' : ByteStream}
    (h : readEvent waveBanks track sound wavesOffset s =
      .ok (track', sound', wavesOffset', s')) :
    s'.data = s.data ∧
    s'.pos = nextEventPos s.data s.pos ∧
    wavesOffset' = (if capturesAt s.data s.pos then le32D s.data (s.pos + 8)
      else wavesOffset) ∧
    (∀ w ∈ track'.waves, w ∈ track.waves ∨ WeightOK w.weightMin w.weightMax) := by
  unfold readEvent at h
  simp only [bind_ok, ok_bind, readByte_ok, readUint16LE_ok,
    readUint32LE_ok, readSint16LE_ok, readSByte_ok, skip_ok, seek_ok,
    byteAt_def, size_def, le16_def, le32_def, be32_def, sint16_def,
    sint8_def, data_mk, pos_mk, Prod.mk.injEq, Prod.exists,
    exists_eq_left, exists_eq_left', and_assoc, exists_and_left,
    Except.ok.injEq, Nat.add_assoc, Nat.reduceAdd] at h
  obtain ⟨-, -, -, -, -, -, h⟩ := h
  split at h
  · -- Play / PlayComplex
    rename_i htag
    simp only [bind_ok, skip_ok, data_mk, pos_mk, size_def, Prod.mk.injEq,
      Prod.exists, exists_eq_left, exists_eq_left', and_assoc,
      exists_and_left, Except.ok.injEq, Nat.add_assoc, Nat.reduceAdd] at h
    obtain ⟨p, tr1, so1, wo1, lo, s1, hy, -, rfl, rfl, rfl, rfl⟩ := h
    obtain ⟨hd, hpos, hcap, hwaves, hev⟩ := readEventPlay_spec hy
    refine ⟨by simpa using hd, ?_, ?_, by simpa using hwaves⟩
    · simp only [pos_mk, data_mk, nextEventPos, Nat.add_assoc] at hd hpos ⊢
      omega
    · simp only [pos_mk, data_mk, Nat.add_assoc] at hcap
      rw [hcap]
      by_cases h4 : 4 ≤ byteD s.data (s.pos + 4) <;>
        by_cases hfl : byteD s.data (s.pos + 5) &&& kPlayEventMultipleVariations = 0 <;>
        simp_all [capturesAt]
  · -- all other event kinds
    rename_i htag
    have hnc : ¬capturesAt s.data s.pos := fun hc => htag hc.1
    repeat' split at h
    · simp only [bind_ok, skip_ok, data_mk, pos_mk, size_def, Prod.mk.injEq,
        Prod.exists, exists_eq_left, exists_eq_left', and_assoc,
        exists_and_left, Except.ok.injEq, Nat.add_assoc, Nat.reduceAdd] at h
      obtain ⟨p, lo, s1, hy, -, rfl, rfl, rfl, rfl⟩ := h
      obtain ⟨hd, hpos⟩ := readEventPitch_spec hy
      refine ⟨by simpa using hd, ?_, by rw [if_neg hnc], fun w hw => Or.inl hw⟩
      simp only [pos_mk, data_mk, nextEventPos, Nat.add_assoc, Nat.reduceAdd] at hd hpos ⊢
      omega
    · simp only [bind_ok, skip_ok, data_mk, pos_mk, size_def, Prod.mk.injEq,
        Prod.exists, exists_eq_left, exists_eq_left', and_assoc,
        exists_and_left, Except.ok.injEq, Nat.add_assoc, Nat.reduceAdd] at h
      obtain ⟨p, lo, s1, hy, -, rfl, rfl, rfl, rfl⟩ := h
      obtain ⟨hd, hpos⟩ := readEventVolume_spec hy
      refine ⟨by simpa using hd, ?_, by rw [if_neg hnc], fun w hw => Or.inl hw⟩
      simp only [pos_mk, data_mk, nextEventPos, Nat.add_assoc, Nat.reduceAdd] at hd hpos ⊢
      omega
    · simp only [bind_ok, skip_ok, data_mk, pos_mk, size_def, Prod.mk.injEq,
        Prod.exists, exists_eq_left, exists_eq_left', and_assoc,
        exists_and_left, Except.ok.injEq, Nat.add_assoc, Nat.reduceAdd] at h
      obtain ⟨p, lo, s1, hy, -, rfl, rfl, rfl, rfl⟩ := h
      obtain ⟨hd, hpos⟩ := readEventLowPass_spec hy
      refine ⟨by simpa using hd, ?_, by rw [if_neg hnc], fun w hw => Or.inl hw⟩
      simp only [pos_mk, data_mk, nextEventPos, Nat.add_assoc, Nat.reduceAdd] at hd hpos ⊢
      omega
    · simp only [bind_ok, skip_ok, data_mk, pos_mk, size_def, Prod.mk.injEq,
        Prod.exists, exists_eq_left, exists_eq_left', and_assoc,
        exists_and_left, Except.ok.injEq, Nat.add_assoc, Nat.reduceAdd] at h
      obtain ⟨p, lo, s1, hy, -, rfl, rfl, rfl, rfl⟩ := h
      obtain ⟨hd, hpos⟩ := readEventLFOMulti_spec hy
      refine ⟨by simpa using hd, ?_, by rw [if_neg hnc], fun w hw => Or.inl hw⟩
      simp only [pos_mk, data_mk, nextEventPos, Nat.add_assoc, Nat.reduceAdd] at hd hpos ⊢
      omega
    · simp only [bind_ok, skip_ok, data_mk, pos_mk, size_def, Prod.mk.injEq,
        Prod.exists, exists_eq_left, exists_eq_left', and_assoc,
        exists_and_left, Except.ok.injEq, Nat.add_assoc, Nat.reduceAdd] at h
      obtain ⟨p, lo, s1, hy, -, rfl, rfl, rfl, rfl⟩ := h
      obtain ⟨hd, hpos⟩ := readEventLoop_spec hy
      refine ⟨by simpa using hd, ?_, by rw [if_neg hnc], fun w hw => Or.inl hw⟩
      simp only [pos_mk, data_mk, nextEventPos, Nat.add_assoc, Nat.reduceAdd] at hd hpos ⊢
      omega
    · simp only [bind_ok, skip_ok, data_mk, pos_mk, size_def, Prod.mk.injEq,
        Prod.exists, exists_eq_left, exists_eq_left', and_assoc,
        exists_and_left, Except.ok.injEq, Nat.add_assoc, Nat.reduceAdd] at h
      obtain ⟨p, lo, s1, hy, -, rfl, rfl, rfl, rfl⟩ := h
      obtain ⟨hd, hpos⟩ := readEventMarker_spec hy
      refine ⟨by simpa using hd, ?_, by rw [if_neg hnc], fun w hw => Or.inl hw⟩
      simp only [pos_mk, data_mk, nextEventPos, Nat.add_assoc, Nat.reduceAdd] at hd hpos ⊢
      omega
    · simp only [bind_ok, skip_ok, data_mk, pos_mk, size_def, Prod.mk.injEq,
        Prod.exists, exists_eq_left, exists_eq_left', and_assoc,
        exists_and_left, Except.ok.injEq, Nat.add_assoc, Nat.reduceAdd] at h
      obtain ⟨p, lo, s1, hy, -, rfl, rfl, rfl, rfl⟩ := h
      obtain ⟨hd, hpos⟩ := readEventDefault_spec hy
      refine ⟨by simpa using hd, ?_, by rw [if_neg hnc], fun w hw => Or.inl hw⟩
      simp only [pos_mk, data_mk, nextEventPos, Nat.add_assoc, Nat.reduceAdd] at hd hpos ⊢
      omega


theorem readEvents_spec {waveBanks : List WaveBank} :
    ∀ {n : Nat} {track : Track} {sound : Sound} {wavesOffset : Nat}
      {s : ByteStream} {track' : Track} {sound' : Sound}
      {wavesOffset' : Nat} {s' : ByteStream},
    readEvents waveBanks n track sound wavesOffset s =
      .ok (track', sound', wavesOffset', s') →
    s'.data = s.data ∧
    s'.pos = eventPosIter s.data s.pos n ∧
    wavesOffset' = captureFold s.data s.pos n wavesOffset ∧
    (∀ w ∈ track'.waves, w ∈ track.waves ∨ WeightOK w.weightMin w.weightMax) := by
  intro n
  induction n with
  | zero =>
    intro track sound wavesOffset s track' sound' wavesOffset' s' h
    simp only [readEvents, Except.ok.injEq, Prod.mk.injEq] at h
    obtain ⟨rfl, rfl, rfl, rfl⟩ := h
    exact ⟨rfl, rfl, rfl, fun w hw => Or.inl hw⟩
  | succ n ih =>
    intro track sound wavesOffset s track' sound' wavesOffset' s' h
    rw [readEvents] at h
    rw [bind_ok] at h
    obtain ⟨⟨track1, sound1, wavesOffset1, s1⟩, h1, h2⟩ := h
    obtain ⟨hd1, hp1, hw1, hm1⟩ := readEvent_spec h1
    obtain ⟨hd2, hp2, hw2, hm2⟩ := ih h2
    refine ⟨by rw [hd2, hd1], ?_, ?_, ?_⟩
    · rw [hp2, hd1, hp1, eventPosIter]
    · rw [hw2, hd1, hp1, hw1, captureFold]
    · intro w hw
      rcases hm2 w hw with hw' | hok
      · exact hm1 w hw'
      · exact Or.inr hok

theorem readWaveVariationsLoop_spec {waveBanks : List WaveBank} :
    ∀ {n : Nat} {track : Track} {s : ByteStream} {track' : Track}
      {s' : ByteStream},
    readWaveVariationsLoop waveBanks n track s = .ok (track', s') →
    s'.data = s.data ∧
    track'.variationSelectMethod = track.variationSelectMethod ∧
    (∀ w ∈ track'.waves, w ∈ track.waves ∨ WeightOK w.weightMin w.weightMax) := by
  intro n
  induction n with
  | zero =>
    intro track s track' s' h
    simp only [readWaveVariationsLoop, Except.ok.injEq, Prod.mk.injEq] at h
    obtain ⟨rfl, rfl⟩ := h
    exact ⟨rfl, rfl, fun w hw => Or.inl hw⟩
  | succ n ih =>
    intro track s track' s' h
    rw [readWaveVariationsLoop] at h
    simp only [bind_ok, ok_bind, readUint32LE_ok, readUint16LE_ok,
      byteAt_def, size_def, le16_def, le32_def, data_mk, pos_mk,
      Prod.mk.injEq, Prod.exists, exists_eq_left, exists_eq_left',
      and_assoc, exists_and_left] at h
    obtain ⟨-, -, -, h⟩ := h
    obtain ⟨hd, hsel, hm⟩ := ih h
    refine ⟨by rw [hd], by rw [hsel]; rfl, ?_⟩
    intro w hw
    rcases hm w hw with hw' | hok
    · simp only [addWaveVariation_waves, List.mem_append,
        List.mem_singleton] at hw'
      rcases hw' with hw' | hw'
      · exact Or.inl hw'
      · subst hw'; exact Or.inr (waveOf_weightOK _ _ _ _)
    · exact Or.inr hok

theorem readWaveVariations_spec {waveBanks : List WaveBank} {track : Track}
    {offset : Nat} {s : ByteStream} {track' : Track} {s' : ByteStream}
    (h : readWaveVariations waveBanks track offset s = .ok (track', s')) :
    s'.data = s.data ∧
    track'.variationSelectMethod = (le32D s.data offset >>> 13) &&& 0xF ∧
    (∀ w ∈ track'.waves, w ∈ track.waves ∨ WeightOK w.weightMin w.weightMax) := by
  unfold readWaveVariations readVariationData at h
  simp only [bind_ok, ok_bind, seek_ok, readUint32LE_ok, byteAt_def,
    size_def, le32_def, data_mk, pos_mk, Prod.mk.injEq, Prod.exists,
    exists_eq_left, exists_eq_left', and_assoc, exists_and_left,
    Except.ok.injEq] at h
  obtain ⟨-, -, h⟩ := h
  obtain ⟨hd, hsel, hm⟩ := readWaveVariationsLoop_spec h
  exact ⟨by rw [hd], by rw [hsel], hm⟩

theorem captureFold_no_capture {d : List Nat} :
    ∀ {n p wo : Nat}, (∀ i < n, ¬capturesAt d (eventPosIter d p i)) →
    captureFold d p n wo = wo := by
  intro n
  induction n with
  | zero => intro p wo _; rfl
  | succ n ih =>
    intro p wo h
    have h0 : ¬capturesAt d p := by
      simpa [eventPosIter] using h 0 (Nat.succ_pos n)
    rw [captureFold, if_neg h0]
    exact ih fun i hi => by
      simpa [eventPosIter] using h (i + 1) (Nat.succ_lt_succ hi)

theorem captureFold_last_capture {d : List Nat} :
    ∀ {n p wo i : Nat}, i < n → capturesAt d (eventPosIter d p i) →
    (∀ j, i < j → j < n → ¬capturesAt d (eventPosIter d p j)) →
    captureFold d p n wo = le32D d (eventPosIter d p i + 8) := by
  intro n
  induction n with
  | zero => intro p wo i hi; omega
  | succ n ih =>
    intro p wo i hi hcap hlast
    match i with
    | 0 =>
      have hcap' : capturesAt d p := by simpa [eventPosIter] using hcap
      rw [captureFold, if_pos hcap']
      simp only [eventPosIter]
      exact captureFold_no_capture fun j hj => by
        simpa [eventPosIter] using
          hlast (j + 1) (Nat.succ_pos j) (Nat.succ_lt_succ hj)
    | i + 1 =>
      rw [captureFold]
      have hres := @ih (nextEventPos d p)
        (if capturesAt d p then le32D d (p + 8) else wo) i
        (Nat.lt_of_succ_lt_succ hi)
        (by simpa [eventPosIter] using hcap)
        (fun j hj hjn => by
          simpa [eventPosIter] using
            hlast (j + 1) (Nat.succ_lt_succ hj) (Nat.succ_lt_succ hjn))
      simpa [eventPosIter] using hres

theorem readComplexTrack_spec {waveBanks : List WaveBank} {track : Track}
    {sound : Sound} {s : ByteStream} {track' : Track} {sound' : Sound}
    {s' : ByteStream}
    (h : readComplexTrack waveBanks track sound s = .ok (track', sound', s')) :
    ∃ track1 sound1 s1,
      readEvents waveBanks (le32D s.data s.pos &&& 0xFF) track sound
          4294967295 ⟨s.data, le32D s.data s.pos >>> 8⟩ =
        .ok (track1, sound1,
          captureFold s.data (le32D s.data s.pos >>> 8)
            (le32D s.data s.pos &&& 0xFF) 4294967295, s1) ∧
      sound' = sound1 ∧
      ((captureFold s.data (le32D s.data s.pos >>> 8)
          (le32D s.data s.pos &&& 0xFF) 4294967295 = 4294967295 ∧
        track' = track1 ∧ s' = s1) ∨
       (captureFold s.data (le32D s.data s.pos >>> 8)
          (le32D s.data s.pos &&& 0xFF) 4294967295 ≠ 4294967295 ∧
        readWaveVariations waveBanks track1
          (captureFold s.data (le32D s.data s.pos >>> 8)
            (le32D s.data s.pos &&& 0xFF) 4294967295) s1 = .ok (track', s'))) ∧
      s'.data = s.data ∧
      (∀ w ∈ track'.waves, w ∈ track.waves ∨ WeightOK w.weightMin w.weightMax) := by
  unfold readComplexTrack at h
  simp only [bind_ok, ok_bind, seek_ok, readUint32LE_ok, byteAt_def,
    size_def, le32_def, data_mk, pos_mk, Prod.mk.injEq, Prod.exists,
    exists_eq_left, exists_eq_left', and_assoc, exists_and_left,
    Except.ok.injEq] at h
  obtain ⟨-, -, track1, sound1, wavesOffset1, s1, hev, h⟩ := h
  obtain ⟨hd1, hp1, hw1, hm1⟩ := readEvents_spec hev
  rw [hw1] at hev
  refine ⟨track1, sound1, s1, hev, ?_⟩
  rw [hw1] at h
  split at h
  · -- deferred offset present: read the wave-variation table
    rename_i hne
    simp only [bind_ok, Prod.exists, Prod.mk.injEq, exists_eq_left,
      exists_eq_left', and_assoc, exists_and_left, Except.ok.injEq] at h
    obtain ⟨track2, s2, hwv, rfl, rfl, rfl⟩ := h
    obtain ⟨hd2, -, hm2⟩ := readWaveVariations_spec hwv
    refine ⟨rfl, Or.inr ⟨hne, hwv⟩, by rw [hd2, hd1], ?_⟩
    intro w hw
    rcases hm2 w hw with hw' | hok
    · exact hm1 w hw'
    · exact Or.inr hok
  · rename_i hne
    simp only [Except.ok.injEq, Prod.mk.injEq] at h
    obtain ⟨rfl, rfl, rfl⟩ := h
    push_neg at hne
    exact ⟨rfl, Or.inl ⟨hne, rfl, rfl⟩, hd1, hm1⟩

theorem readCueVariationsLoop_spec :
    ∀ {n : Nat} {acc : List CueVariation} {s : ByteStream}
      {vars : List CueVariation} {s' : ByteStream},
    readCueVariationsLoop n acc s = .ok (vars, s') →
    s'.data = s.data ∧
    (∀ v ∈ vars, v ∈ acc ∨ WeightOK v.weightMin v.weightMax) := by
  intro n
  induction n with
  | zero =>
    intro acc s vars s' h
    simp only [readCueVariationsLoop, Except.ok.injEq, Prod.mk.injEq] at h
    obtain ⟨rfl, rfl⟩ := h
    exact ⟨rfl, fun v hv => Or.inl hv⟩
  | succ n ih =>
    intro acc s vars s' h
    rw [readCueVariationsLoop] at h
    simp only [bind_ok, ok_bind, readUint16LE_ok, skip_ok, byteAt_def,
      size_def, le16_def, data_mk, pos_mk, Prod.mk.injEq, Prod.exists,
      exists_eq_left, exists_eq_left', and_assoc, exists_and_left] at h
    obtain ⟨-, -, -, -, h⟩ := h
    obtain ⟨hd, hm⟩ := ih h
    refine ⟨by rw [hd], ?_⟩
    intro v hv
    rcases hm v hv with hv' | hok
    · simp only [List.mem_append, List.mem_singleton] at hv'
      rcases hv' with hv' | hv'
      · exact Or.inl hv'
      · subst hv'
        refine Or.inr ?_
        unfold WeightOK clipNat kWeightMinimum kWeightMaximum
        dsimp only
        split <;> dsimp only <;> omega
    · exact Or.inr hok

theorem readCueVarations_spec {cue : Cue} {offset : Nat} {s : ByteStream}
    {cue' : Cue} {s' : ByteStream}
    (h : readCueVarations cue offset s = .ok (cue', s')) :
    s'.data = s.data ∧
    cue'.variationSelectMethod = (le32D s.data offset >>> 13) &&& 0xF ∧
    CueWeightsOK cue' ∧ cue'.name = cue.name := by
  unfold readCueVarations readVariationData at h
  simp only [bind_ok, ok_bind, seek_ok, readUint32LE_ok, byteAt_def,
    size_def, le32_def, data_mk, pos_mk, Prod.mk.injEq, Prod.exists,
    exists_eq_left, exists_eq_left', and_assoc, exists_and_left,
    Except.ok.injEq] at h
  obtain ⟨-, -, vars, s1, hloop, rfl, rfl⟩ := h
  obtain ⟨hd, hm⟩ := readCueVariationsLoop_spec hloop
  refine ⟨by rw [hd], rfl, ?_, rfl⟩
  intro v hv
  rcases hm v hv with hv' | hok
  · simp at hv'
  · exact hok

theorem readStringLoop_spec :
    ∀ {fuel : Nat} {acc : List Char} {s : ByteStream} {r : String × ByteStream},
    readStringLoop fuel acc s = .ok r → r.2.data = s.data := by
  intro fuel
  induction fuel with
  | zero =>
    intro acc s r h
    simp only [readStringLoop, Except.ok.injEq] at h
    rw [← h]
  | succ fuel ih =>
    intro acc s r h
    simp only [readStringLoop] at h
    split at h
    · split at h
      · simp only [Except.ok.injEq] at h
        rw [← h]
      · simpa using ih h
    · simp only [Except.ok.injEq] at h
      rw [← h]

theorem readString_spec {s : ByteStream} {r : String × ByteStream}
    (h : readString s = .ok r) : r.2.data = s.data :=
  readStringLoop_spec h

theorem readCueName_spec {xsbFlags offsetName : Nat} {s : ByteStream}
    {cue : Cue} {reg : Option String} {s' : ByteStream}
    (h : readCueName xsbFlags offsetName s = .ok (cue, reg, s')) :
    s'.data = s.data ∧ cue.variations = [] ∧
    (xsbFlags &&& kXSBNoCueNames ≠ 0 → cue.name = "" ∧ reg = none) := by
  unfold readCueName at h
  split at h
  · rename_i hcond
    simp only [bind_ok, ok_bind, seek_ok, size_def, data_mk, pos_mk,
      Prod.mk.injEq, Prod.exists, exists_eq_left, exists_eq_left',
      and_assoc, exists_and_left, Except.ok.injEq] at h
    obtain ⟨-, nm, s2, hstr, rfl, rfl, rfl⟩ := h
    have hd := readString_spec hstr
    exact ⟨by simpa using hd, rfl, fun hfl => absurd hcond.1 hfl⟩
  · simp only [Except.ok.injEq, Prod.mk.injEq] at h
    obtain ⟨rfl, rfl, rfl⟩ := h
    exact ⟨rfl, rfl, fun _ => ⟨rfl, rfl⟩⟩

theorem readCueEntry_spec {cue : Cue} {soundIndex offsetEntry : Nat}
    {s : ByteStream} {cue' : Cue} {s' : ByteStream}
    (h : readCueEntry cue soundIndex offsetEntry s = .ok (cue', s')) :
    s'.data = s.data ∧ cue'.name = cue.name ∧
    (CueWeightsOK cue → CueWeightsOK cue') ∧
    (offsetEntry = 4294967295 →
      (soundIndex ≠ 65535 →
        cue'.variationSelectMethod = kSelectMethodOrdered ∧
        cue'.variations = [{ soundIndex := soundIndex,
                             weightMin := kWeightMinimum,
                             weightMax := kWeightMaximum }]) ∧
      (soundIndex = 65535 → cue' = cue)) := by
  unfold readCueEntry at h
  split at h
  · rename_i hne
    obtain ⟨hd, hsel, hwOK, hnm⟩ := readCueVarations_spec h
    exact ⟨hd, hnm, fun _ => hwOK, fun hsent => absurd hsent hne⟩
  · rename_i hne
    simp only [ne_eq, Decidable.not_not] at hne
    split at h
    · rename_i hidx
      simp only [Except.ok.injEq, Prod.mk.injEq] at h
      obtain ⟨rfl, rfl⟩ := h
      refine ⟨rfl, rfl, ?_, ?_⟩
      · intro _ v hv
        simp only [List.mem_singleton] at hv
        subst hv
        exact (by decide : WeightOK kWeightMinimum kWeightMaximum)
      · intro _
        exact ⟨fun _ => ⟨rfl, rfl⟩, fun hidx' => absurd hidx' hidx⟩
    · rename_i hidx
      simp only [ne_eq, Decidable.not_not] at hidx
      simp only [Except.ok.injEq, Prod.mk.injEq] at h
      obtain ⟨rfl, rfl⟩ := h
      exact ⟨rfl, rfl, fun hok => hok,
        fun _ => ⟨fun hidx' => absurd hidx hidx', fun _ => rfl⟩⟩

theorem readCue_spec {xsbFlags : Nat} {s : ByteStream} {cue : Cue}
    {reg : Option String} {s' : ByteStream}
    (h : readCue xsbFlags s = .ok (cue, reg, s')) :
    s'.data = s.data ∧
    CueWeightsOK cue ∧
    (xsbFlags &&& kXSBNoCueNames ≠ 0 → cue.name = "" ∧ reg = none) ∧
    (le32D s.data (s.pos + 8) = 4294967295 →
      (le16D s.data (s.pos + 2) ≠ 65535 →
        cue.variationSelectMethod = kSelectMethodOrdered ∧
        cue.variations = [{ soundIndex := le16D s.data (s.pos + 2),
                            weightMin := kWeightMinimum,
                            weightMax := kWeightMaximum }]) ∧
      (le16D s.data (s.pos + 2) = 65535 → cue.variations = [])) := by
  unfold readCue at h
  simp only [bind_ok, ok_bind, skip_ok, readUint16LE_ok, readUint32LE_ok,
    byteAt_def, size_def, le16_def, le32_def, data_mk, pos_mk,
    Prod.mk.injEq, Prod.exists, exists_eq_left, exists_eq_left', and_assoc,
    exists_and_left, Except.ok.injEq, Nat.add_assoc, Nat.reduceAdd] at h
  obtain ⟨-, -, -, -, -, -, cue0, reg0, s0, hname, cue1, s1, hentry,
    rfl, rfl, rfl⟩ := h
  obtain ⟨hd0, hvars0, hflag0⟩ := readCueName_spec hname
  obtain ⟨hd1, hnm1, hok1, hsent1⟩ := readCueEntry_spec hentry
  refine ⟨by rw [hd1, hd0], ?_, ?_, ?_⟩
  · refine hok1 ?_
    intro v hv
    rw [hvars0] at hv
    simp at hv
  · intro hfl
    exact ⟨by rw [hnm1]; exact (hflag0 hfl).1, (hflag0 hfl).2⟩
  · exact fun hsent =>
      ⟨fun hidx => (hsent1 hsent).1 hidx,
       fun hidx => by rw [(hsent1 hsent).2 hidx, hvars0]⟩

theorem readCuesLoop_spec {xsbFlags offset : Nat} :
    ∀ {n i : Nat} {cues : List Cue} {cueMap : List (String × Nat)}
      {s : ByteStream} {cues' : List Cue} {cueMap' : List (String × Nat)}
      {s' : ByteStream},
    readCuesLoop xsbFlags offset i n cues cueMap s = .ok (cues', cueMap', s') →
    s'.data = s.data ∧
    (∀ c ∈ cues', c ∈ cues ∨ CueWeightsOK c) ∧
    (xsbFlags &&& kXSBNoCueNames ≠ 0 → cueMap' = cueMap) := by
  intro n
  induction n with
  | zero =>
    intro i cues cueMap s cues' cueMap' s' h
    simp only [readCuesLoop, Except.ok.injEq, Prod.mk.injEq] at h
    obtain ⟨rfl, rfl, rfl⟩ := h
    exact ⟨rfl, fun c hc => Or.inl hc, fun _ => rfl⟩
  | succ n ih =>
    intro i cues cueMap s cues' cueMap' s' h
    rw [readCuesLoop] at h
    simp only [bind_ok, ok_bind, seek_ok, size_def, data_mk, pos_mk,
      Prod.mk.injEq, Prod.exists, exists_eq_left, exists_eq_left',
      and_assoc, exists_and_left] at h
    obtain ⟨-, cue1, reg1, s1, hcue, h⟩ := h
    obtain ⟨hd1, hw1, hflag1, -⟩ := readCue_spec hcue
    obtain ⟨hd2, hm2, hmap2⟩ := ih h
    refine ⟨by rw [hd2, hd1], ?_, ?_⟩
    · intro c hc
      rcases hm2 c hc with hc' | hok
      · simp only [List.mem_append, List.mem_singleton] at hc'
        rcases hc' with hc' | hc'
        · exact Or.inl hc'
        · subst hc'; exact Or.inr hw1
      · exact Or.inr hok
    · intro hfl
      rw [hmap2 hfl, (hflag1 hfl).2]

theorem readCues_spec {xsbFlags offset count : Nat} {s : ByteStream}
    {cues' : List Cue} {cueMap' : List (String × Nat)} {s' : ByteStream}
    (h : readCues xsbFlags offset count s = .ok (cues', cueMap', s')) :
    s'.data = s.data ∧
    (∀ c ∈ cues', CueWeightsOK c) ∧
    (xsbFlags &&& kXSBNoCueNames ≠ 0 → cueMap' = []) := by
  obtain ⟨hd, hm, hmap⟩ := readCuesLoop_spec h
  refine ⟨hd, ?_, hmap⟩
  intro c hc
  rcases hm c hc with hc' | hok
  · simp at hc'
  · exact hok

theorem readComplexTracksLoop_spec {waveBanks : List WaveBank}
    {indicesOrOffset : Nat} :
    ∀ {n i : Nat} {tracks : List Track} {sound : Sound} {s : ByteStream}
      {tracks' : List Track} {sound' : Sound} {s' : ByteStream},
    readComplexTracksLoop waveBanks indicesOrOffset i n tracks sound s =
      .ok (tracks', sound', s') →
    s'.data = s.data ∧
    tracks'.length = tracks.length + n ∧
    (∀ t ∈ tracks', t ∈ tracks ∨ TrackWeightsOK t) := by
  intro n
  induction n with
  | zero =>
    intro i tracks sound s tracks' sound' s' h
    simp only [readComplexTracksLoop, Except.ok.injEq, Prod.mk.injEq] at h
    obtain ⟨rfl, rfl, rfl⟩ := h
    exact ⟨rfl, rfl, fun t ht => Or.inl ht⟩
  | succ n ih =>
    intro i tracks sound s tracks' sound' s' h
    rw [readComplexTracksLoop] at h
    simp only [bind_ok, ok_bind, seek_ok, size_def, data_mk, pos_mk,
      Prod.mk.injEq, Prod.exists, exists_eq_left, exists_eq_left',
      and_assoc, exists_and_left] at h
    obtain ⟨-, track1, sound1, s1, htr, h⟩ := h
    obtain ⟨t1, u1, v1, hev, hso, hdisj, hd1, hm1⟩ := readComplexTrack_spec htr
    obtain ⟨hd2, hlen2, hm2⟩ := ih h
    refine ⟨by rw [hd2]; simpa using hd1, by simp at hlen2; omega, ?_⟩
    intro t ht
    rcases hm2 t ht with ht' | hok
    · simp only [List.mem_append, List.mem_singleton] at ht'
      rcases ht' with ht' | ht'
      · exact Or.inl ht'
      · subst ht'
        refine Or.inr fun w hw => ?_
        rcases hm1 w hw with hw' | hok'
        · simp at hw'
        · exact hok'
    · exact Or.inr hok

theorem readTracks_spec {waveBanks : List WaveBank} {sound : Sound}
    {indicesOrOffset count flags : Nat} {s : ByteStream} {sound' : Sound}
    {s' : ByteStream}
    (h : readTracks waveBanks sound indicesOrOffset count flags s =
      .ok (sound', s')) :
    s'.data = s.data ∧
    SoundWeightsOK sound' ∧
    sound'.tracks.length = count ∧
    (flags &&& (kSoundTrivial ||| kSoundSimple) ≠ 0 → count = 1) := by
  unfold readTracks at h
  split at h
  · exact absurd h (by simp)
  · rename_i hguard
    have hcount : flags &&& (kSoundTrivial ||| kSoundSimple) ≠ 0 → count = 1 := by
      intro hfl
      by_contra hc
      exact hguard ⟨hfl, hc⟩
    have hsub : ∀ m : Nat, (kSoundTrivial ||| kSoundSimple) &&& m = m →
        flags &&& (kSoundTrivial ||| kSoundSimple) = 0 → flags &&& m = 0 := by
      intro m hm hz
      have h0 : flags &&& (kSoundTrivial ||| kSoundSimple) &&& m = 0 := by
        rw [hz, Nat.zero_and]
      rwa [Nat.and_assoc, hm] at h0
    split at h
    · -- trivial
      rename_i htriv
      simp only [Except.ok.injEq, Prod.mk.injEq] at h
      obtain ⟨rfl, rfl⟩ := h
      refine ⟨rfl, ?_, ?_, hcount⟩
      · intro t ht
        simp only [List.mem_singleton] at ht
        subst ht
        intro w hw
        simp only [addWaveVariation_waves] at hw
        simp only [List.mem_append, List.mem_singleton] at hw
        rcases hw with hw | hw
        · simp at hw
        · subst hw; exact waveOf_weightOK _ _ _ _
      · exact (hcount fun hz =>
          htriv (hsub kSoundTrivial (by decide) hz)).symm
    · rename_i htriv
      split at h
      · -- simple
        rename_i hsimp
        simp only [bind_ok, Prod.exists, Prod.mk.injEq, exists_eq_left,
          exists_eq_left', and_assoc, exists_and_left, Except.ok.injEq] at h
        obtain ⟨track1, s1, hwv, rfl, rfl⟩ := h
        obtain ⟨hd1, -, hm1⟩ := readWaveVariations_spec hwv
        refine ⟨hd1, ?_, ?_, hcount⟩
        · intro t ht
          simp only [List.mem_singleton] at ht
          subst ht
          intro w hw
          rcases hm1 w hw with hw' | hok
          · simp at hw'
          · exact hok
        · exact (hcount fun hz =>
            hsimp (hsub kSoundSimple (by decide) hz)).symm
      · -- complex
        simp only [bind_ok, Prod.exists, Prod.mk.injEq, exists_eq_left,
          exists_eq_left', and_assoc, exists_and_left, Except.ok.injEq] at h
        obtain ⟨tracks1, sound1, s1, hloop, rfl, rfl⟩ := h
        obtain ⟨hd1, hlen1, hm1⟩ := readComplexTracksLoop_spec hloop
        refine ⟨hd1, ?_, by simpa using hlen1, hcount⟩
        intro t ht
        rcases hm1 t ht with ht' | hok
        · simp at ht'
        · exact hok

theorem readRollOffLoop_spec :
    ∀ {n : Nat} {acc : List Nat} {s : ByteStream} {r : List Nat × ByteStream},
    readRollOffLoop n acc s = .ok r → r.2.data = s.data := by
  intro n
  induction n with
  | zero =>
    intro acc s r h
    simp only [readRollOffLoop, Except.ok.injEq] at h
    rw [← h]
  | succ n ih =>
    intro acc s r h
    rw [readRollOffLoop] at h
    simp only [bind_ok, readByte_ok, byteAt_def, size_def, data_mk, pos_mk,
      Prod.mk.injEq, Prod.exists, exists_eq_left, exists_eq_left',
      and_assoc, exists_and_left] at h
    obtain ⟨-, h⟩ := h
    simpa using ih h

theorem read3DParams_spec {volume volume3D : Nat} {sound : Sound}
    {offset3DParams index3DParam : Nat} {s : ByteStream} {sound' : Sound}
    {s' : ByteStream}
    (h : read3DParams volume volume3D sound offset3DParams index3DParam s =
      .ok (sound', s')) :
    s'.data = s.data ∧ sound'.tracks = sound.tracks := by
  unfold read3DParams at h
  simp only [bind_ok, ok_bind, seek_ok, readUint16LE_ok, readSint16LE_ok,
    readUint32LE_ok, readIEEEFloatLE, readByte_ok, skip_ok, byteAt_def,
    size_def, le16_def, le32_def, sint16_def, data_mk, pos_mk,
    Prod.mk.injEq, Prod.exists, exists_eq_left, exists_eq_left', and_assoc,
    exists_and_left, Except.ok.injEq] at h
  obtain ⟨-, -, -, -, -, -, -, -, -, -, -, -, curve, s1, hroll, rfl, rfl⟩ := h
  have hd := readRollOffLoop_spec hroll
  exact ⟨by simpa using hd, rfl⟩

theorem readSound_spec {waveBanks : List WaveBank} {offset3DParams : Nat}
    {s : ByteStream} {sound' : Sound} {s' : ByteStream}
    (h : readSound waveBanks offset3DParams s = .ok (sound', s')) :
    s'.data = s.data ∧ SoundWeightsOK sound' := by
  unfold readSound at h
  simp only [bind_ok, ok_bind, readUint32LE_ok, readUint16LE_ok,
    readSint16LE_ok, readByte_ok, byteAt_def, size_def, le16_def, le32_def,
    sint16_def, data_mk, pos_mk, Prod.mk.injEq, Prod.exists, exists_eq_left,
    exists_eq_left', and_assoc, exists_and_left, Except.ok.injEq,
    Nat.add_assoc, Nat.reduceAdd] at h
  obtain ⟨-, -, -, -, -, -, -, -, -, -, -, -, h⟩ := h
  split at h
  · -- 3D branch
    simp only [bind_ok, Prod.exists, Prod.mk.injEq, exists_eq_left,
      exists_eq_left', and_assoc, exists_and_left] at h
    obtain ⟨sound1, s1, h3d, htr⟩ := h
    obtain ⟨hd1, -⟩ := read3DParams_spec h3d
    obtain ⟨hd2, hwOK, -, -⟩ := readTracks_spec htr
    exact ⟨by rw [hd2]; simpa using hd1, hwOK⟩
  · obtain ⟨hd2, hwOK, -, -⟩ := readTracks_spec h
    exact ⟨by simpa using hd2, hwOK⟩

theorem readSoundsLoop_spec {waveBanks : List WaveBank}
    {offset offset3DParams : Nat} :
    ∀ {n i : Nat} {sounds : List Sound} {s : ByteStream}
      {sounds' : List Sound} {s' : ByteStream},
    readSoundsLoop waveBanks offset offset3DParams i n sounds s =
      .ok (sounds', s') →
    s'.data = s.data ∧
    (∀ snd ∈ sounds', snd ∈ sounds ∨ SoundWeightsOK snd) := by
  intro n
  induction n with
  | zero =>
    intro i sounds s sounds' s' h
    simp only [readSoundsLoop, Except.ok.injEq, Prod.mk.injEq] at h
    obtain ⟨rfl, rfl⟩ := h
    exact ⟨rfl, fun snd hs => Or.inl hs⟩
  | succ n ih =>
    intro i sounds s sounds' s' h
    rw [readSoundsLoop] at h
    simp only [bind_ok, ok_bind, seek_ok, size_def, data_mk, pos_mk,
      Prod.mk.injEq, Prod.exists, exists_eq_left, exists_eq_left',
      and_assoc, exists_and_left] at h
    obtain ⟨-, sound1, s1, hsnd, h⟩ := h
    obtain ⟨hd1, hw1⟩ := readSound_spec hsnd
    obtain ⟨hd2, hm2⟩ := ih h
    refine ⟨by rw [hd2]; simpa using hd1, ?_⟩
    intro snd hs
    rcases hm2 snd hs with hs' | hok
    · simp only [List.mem_append, List.mem_singleton] at hs'
      rcases hs' with hs' | hs'
      · exact Or.inl hs'
      · subst hs'; exact Or.inr hw1
    · exact Or.inr hok

theorem readSounds_spec {waveBanks : List WaveBank}
    {offset count offset3DParams : Nat} {s : ByteStream}
    {sounds' : List Sound} {s' : ByteStream}
    (h : readSounds waveBanks offset count offset3DParams s =
      .ok (sounds', s')) :
    s'.data = s.data ∧ (∀ snd ∈ sounds', SoundWeightsOK snd) := by
  obtain ⟨hd, hm⟩ := readSoundsLoop_spec h
  refine ⟨hd, fun snd hs => ?_⟩
  rcases hm snd hs with hs' | hok
  · simp at hs'
  · exact hok

theorem throw_bind {α β : Type _} (e : String) (f : α → Except String β) :
    ((throw e : Except String α) >>= f) = .error e := rfl

theorem pureE_bind {ε α β : Type _} (a : α) (f : α → Except ε β) :
    ((pure a : Except ε α) >>= f) = f a := rfl

@[simp] theorem error_ne_ok {ε α : Type _} (e : ε) (a : α) :
    (Except.error e = Except.ok a) ↔ False := by simp

theorem load_weights {s : ByteStream} {bank : SoundBank}
    (h : load s = .ok bank) : BankWeightsOK bank := by
  unfold load at h
  simp only [bind_ok, ok_bind, throw_bind, readUint32BE_ok, byteAt_def,
    size_def, be32_def, data_mk, pos_mk, Prod.mk.injEq, Prod.exists,
    exists_eq_left, exists_eq_left', and_assoc, exists_and_left] at h
  obtain ⟨-, h⟩ := h
  split at h
  · simp at h
  · simp only [bind_ok, ok_bind, pureE_bind, throw_bind, readUint16LE_ok,
      byteAt_def, size_def, le16_def, data_mk, pos_mk, Prod.mk.injEq,
      Prod.exists, exists_eq_left, exists_eq_left', and_assoc,
      exists_and_left] at h
    obtain ⟨-, h⟩ := h
    split at h
    · simp at h
    · simp only [bind_ok, ok_bind, pureE_bind, skip_ok, readUint32LE_ok,
        readUint16LE_ok, readStringFixed16_ok, byteAt_def, size_def,
        le16_def, le32_def, data_mk, pos_mk, Prod.mk.injEq, Prod.exists,
        exists_eq_left, exists_eq_left', and_assoc, exists_and_left,
        Except.ok.injEq] at h
      obtain ⟨-, -, -, -, -, -, -, -, -, -, -, -, -, banks, bmap, s1,
        hwb, cues, cmap, s2, hcues, sounds, s3, hsounds, hbank⟩ := h
      obtain ⟨-, hcOK, -⟩ := readCues_spec hcues
      obtain ⟨-, hsOK⟩ := readSounds_spec hsounds
      rw [← hbank]
      exact ⟨hcOK, hsOK⟩

/-! ## Claim theorems -/

/-- C1 (amended): for every event record decoded by the complex-track
event decoder, whatever the type tag and however many payload bytes the
type-specific branch consumed, the stream ends exactly `2 + declared
parameter size` bytes past the record's 1-byte flag byte: each branch
reads a fixed 2-byte field that the declared size does not count, and the
decoder then skips whatever the branch left of the declared size.  (The
claim as stated — exactly the declared size past the flag byte — is
refuted by `c1_event_advance_counterexample`.) -/
theorem c1_event_advance_amended {waveBanks : List WaveBank} {track : Track}
    {sound : Sound} {wavesOffset : Nat} {s : ByteStream} {track' : Track}
    {sound' : Sound} {wavesOffset' : Nat} {s' : ByteStream}
    (h : readEvent waveBanks track sound wavesOffset s =
      .ok (track', sound', wavesOffset', s')) :
    s'.data = s.data ∧
    s'.pos = (s.pos + 6) + 2 + byteD s.data (s.pos + 4) := by
  obtain ⟨hd, hp, -, -⟩ := readEvent_spec h
  refine ⟨hd, ?_⟩
  rw [hp]
  unfold nextEventPos
  omega

/-- C1, as stated, is false on the code: a Play event record at position
0 declaring parameter size 6 whose type-specific decoder consumes only 4
payload bytes leaves the stream at position 14, not at 12 = (position
just past the flag byte) + declared size, because the 2 bytes the branch
skips before the payload are not counted in the declared size. -/
theorem c1_event_advance_counterexample :
    readEvent [] {} {} 4294967295 ⟨exBufC1, 0⟩ =
      .ok ({ variationSelectMethod := kSelectMethodOrdered,
             waves := [{ index := 1, bank := "",
                         weightMin := 0, weightMax := 255 }],
             events := [{ type := 0, timestamp := 0, params := .blank }] },
           {}, 4294967295, ⟨exBufC1, 14⟩) ∧
    (0 + 6) + byteD exBufC1 (0 + 4) = 12 ∧ (14 : Nat) ≠ 12 :=
  ⟨rfl, rfl, by omega⟩

/-- Witness for C1 (amended) at the concrete record `exBufC1`. -/
theorem c1_event_advance_witness :
    (⟨exBufC1, 14⟩ : ByteStream).data = (⟨exBufC1, 0⟩ : ByteStream).data ∧
    (⟨exBufC1, 14⟩ : ByteStream).pos =
      ((⟨exBufC1, 0⟩ : ByteStream).pos + 6) + 2 +
        byteD (⟨exBufC1, 0⟩ : ByteStream).data
          ((⟨exBufC1, 0⟩ : ByteStream).pos + 4) :=
  @c1_event_advance_amended [] {} {} 4294967295 ⟨exBufC1, 0⟩
    { variationSelectMethod := kSelectMethodOrdered,
      waves := [{ index := 1, bank := "", weightMin := 0, weightMax := 255 }],
      events := [{ type := 0, timestamp := 0, params := .blank }] }
    {} 4294967295 ⟨exBufC1, 14⟩ rfl

/-- C2: out-of-range offsets and sizes are hard failures, never clamped:
the seek primitive fails on any target beyond the buffer and on success
lands exactly on the requested offset; reads and skips that would pass
the end fail; and decoding buffers whose wave-bank table offset, cue name
offset, cue entry offset, simple-sound wave-table offset, 3D-parameter
position, track-pointer offset, or events-table offset lies outside the
buffer fails with the seek error and returns no bank. -/
theorem c2_out_of_range_offsets :
    (∀ (s : ByteStream) (p : Nat), s.size < p →
      seek p s = .error "XSB: seek past end of stream") ∧
    (∀ (s : ByteStream) (p : Nat) (r : Unit × ByteStream),
      seek p s = .ok r → r.2.pos = p ∧ p ≤ s.size) ∧
    (∀ (s : ByteStream) (n : Nat), s.size < s.pos + n →
      skip n s = .error "XSB: skip past end of stream") ∧
    (∀ s : ByteStream, s.size < s.pos + 4 →
      readUint32LE s = .error "XSB: read past end of stream") ∧
    (∀ s : ByteStream, s.size < s.pos + 1 →
      readByte s = .error "XSB: read past end of stream") ∧
    (∀ s : ByteStream, s.size < s.pos + 2 →
      readUint16LE s = .error "XSB: read past end of stream") ∧
    (∀ s : ByteStream, s.size < s.pos + 2 →
      readSint16LE s = .error "XSB: read past end of stream") ∧
    (∀ s : ByteStream, s.size < s.pos + 16 →
      readStringFixed16 s = .error "XSB: read past end of stream") ∧
    decode exBufBadWaveBankOffset = .error "XSB: seek past end of stream" ∧
    decode exBufBadCueName = .error "XSB: seek past end of stream" ∧
    decode exBufBadCueEntry = .error "XSB: seek past end of stream" ∧
    decode exBufBadSoundWaves = .error "XSB: seek past end of stream" ∧
    decode exBufBad3DIndex = .error "XSB: seek past end of stream" ∧
    decode exBufBadTrackPointer = .error "XSB: seek past end of stream" ∧
    decode exBufBadEventOffset = .error "XSB: seek past end of stream" := by
  refine ⟨?_, ?_, ?_, ?_, ?_, ?_, ?_, ?_, rfl, rfl, rfl, rfl, rfl, rfl, rfl⟩
  · intro s p hp
    unfold seek
    rw [if_neg (by omega)]
  · intro s p r h
    rw [seek_ok] at h
    obtain ⟨rfl, hle⟩ := h
    exact ⟨rfl, hle⟩
  · intro s n hn
    unfold skip
    rw [if_neg (by omega)]
  · intro s hn
    unfold readUint32LE
    rw [if_neg (by omega)]
  · intro s hn
    unfold readByte
    rw [if_neg (by omega)]
  · intro s hn
    unfold readUint16LE
    rw [if_neg (by omega)]
  · intro s hn
    unfold readSint16LE
    rw [if_neg (by omega)]
  · intro s hn
    unfold readStringFixed16
    rw [if_neg (by omega)]

/-- Witness for C2 at concrete out-of-range inputs. -/
theorem c2_out_of_range_offsets_witness :
    seek 5 ⟨[1, 2, 3], 0⟩ = .error "XSB: seek past end of stream" ∧
    ((((), ⟨[1, 2, 3], 2⟩) : Unit × ByteStream).2.pos = 2 ∧
      2 ≤ (⟨[1, 2, 3], 0⟩ : ByteStream).size) :=
  ⟨c2_out_of_range_offsets.1 ⟨[1, 2, 3], 0⟩ 5 (by decide),
   c2_out_of_range_offsets.2.1 ⟨[1, 2, 3], 0⟩ 2 ((), ⟨[1, 2, 3], 2⟩) rfl⟩

/-- C3: a sound record carrying the trivial (bit 3) or simple (bit 4)
flag whose declared 8-bit track count differs from 1 makes the whole
decode fail, and every successfully decoded sound carrying one of those
flags has exactly one track. -/
theorem c3_trivial_simple_single_track (waveBanks : List WaveBank)
    (sound : Sound) (indicesOrOffset count flags : Nat) (s : ByteStream) :
    (flags &&& (kSoundTrivial ||| kSoundSimple) ≠ 0 → count ≠ 1 →
      readTracks waveBanks sound indicesOrOffset count flags s =
        .error "XACTSoundBank_Binary::readTracks(): Trivial/simple sound, but trackCount == count") ∧
    (∀ sound' s',
      readTracks waveBanks sound indicesOrOffset count flags s =
        .ok (sound', s') →
      flags &&& (kSoundTrivial ||| kSoundSimple) ≠ 0 →
      sound'.tracks.length = 1) := by
  constructor
  · intro hflag hcount
    unfold readTracks
    rw [if_pos ⟨hflag, hcount⟩]
  · intro sound' s' h hflag
    obtain ⟨-, -, hlen, hone⟩ := readTracks_spec h
    rw [hlen, hone hflag]

/-- Witness for C3: a trivial sound with track count 2 is rejected; a
trivial sound with track count 1 decodes to exactly one track. -/
theorem c3_trivial_simple_single_track_witness :
    readTracks [] {} 7 2 kSoundTrivial ⟨[], 0⟩ =
      .error "XACTSoundBank_Binary::readTracks(): Trivial/simple sound, but trackCount == count" ∧
    ({ tracks := [{ variationSelectMethod := kSelectMethodOrdered,
                    waves := [{ index := 7, bank := "",
                                weightMin := 0, weightMax := 255 }],
                    events := [{ type := kEventTypePlay }] }] } :
        Sound).tracks.length = 1 :=
  ⟨(c3_trivial_simple_single_track [] {} 7 2 kSoundTrivial ⟨[], 0⟩).1
      (by decide) (by decide),
   (c3_trivial_simple_single_track [] {} 7 1 kSoundTrivial ⟨[], 0⟩).2
      _ ⟨[], 0⟩ rfl (by decide)⟩

/-- C4: in every successfully decoded sound bank, every cue variation
and every wave variation satisfies
`kWeightMinimum ≤ weightMin ≤ weightMax ≤ kWeightMaximum`, whatever two
16-bit weight words the source records contained: each weight is clamped
to the legal range independently and the pair is swapped when
inverted. -/
theorem c4_weights_clamped_ordered (buffer : List Nat) (bank : SoundBank)
    (h : decode buffer = .ok bank) : BankWeightsOK bank :=
  load_weights h

/-- Witness for C4 at the end-to-end scenario buffer. -/
theorem c4_weights_clamped_ordered_witness : BankWeightsOK exScenarioBank :=
  c4_weights_clamped_ordered exBufScenario exScenarioBank rfl

/-- C5: the variation descriptor decoder is a pure function of one
32-bit little-endian word `w`, returning count = the low 13 bits
(`w % 2^13`), selectionMethod = the next 4 bits (`w / 2^13 % 2^4`),
currentIndex = the next 13 bits (`w / 2^17 % 2^13`) and flags = the top
2 bits (`w / 2^30`); and the same single function `readVariationData` is
invoked by both the cue-variation loader and the wave-variation loader,
whose stored selection methods equal its selectionMethod component. -/
theorem c5_variation_descriptor (s : ByteStream) :
    (∀ (r : Nat × Nat × Nat × Nat) (s' : ByteStream),
      readVariationData s = .ok (r, s') →
      le32D s.data s.pos < 2 ^ 32 ∧
      r.1 = le32D s.data s.pos % 2 ^ 13 ∧
      r.2.1 = le32D s.data s.pos / 2 ^ 17 % 2 ^ 13 ∧
      r.2.2.1 = le32D s.data s.pos / 2 ^ 13 % 2 ^ 4 ∧
      r.2.2.2 = le32D s.data s.pos / 2 ^ 30) ∧
    (∀ (cue : Cue) (offset : Nat) (cue' : Cue) (s' : ByteStream),
      readCueVarations cue offset s = .ok (cue', s') →
      ∃ (r : Nat × Nat × Nat × Nat) (s₁ : ByteStream),
        readVariationData ⟨s.data, offset⟩ = .ok (r, s₁) ∧
        cue'.variationSelectMethod = r.2.2.1) ∧
    (∀ (waveBanks : List WaveBank) (track : Track) (offset : Nat)
      (track' : Track) (s' : ByteStream),
      readWaveVariations waveBanks track offset s = .ok (track', s') →
      ∃ (r : Nat × Nat × Nat × Nat) (s₁ : ByteStream),
        readVariationData ⟨s.data, offset⟩ = .ok (r, s₁) ∧
        track'.variationSelectMethod = r.2.2.1) := by
  have hmask13 : ∀ x : Nat, x &&& 8191 = x % 8192 := fun x => by
    have := Nat.and_pow_two_sub_one_eq_mod x 13
    norm_num at this
    exact this
  have hmask4 : ∀ x : Nat, x &&& 15 = x % 16 := fun x => by
    have := Nat.and_pow_two_sub_one_eq_mod x 4
    norm_num at this
    exact this
  refine ⟨?_, ?_, ?_⟩
  · intro r s' h
    unfold readVariationData at h
    simp only [bind_ok, ok_bind, readUint32LE_ok, byteAt_def, size_def,
      le32_def, data_mk, pos_mk, Prod.mk.injEq, Prod.exists, exists_eq_left,
      exists_eq_left', and_assoc, exists_and_left, Except.ok.injEq] at h
    obtain ⟨-, rfl, rfl⟩ := h
    have h0 : byteD s.data s.pos < 256 := Nat.mod_lt _ (by norm_num)
    have h1 : byteD s.data (s.pos + 1) < 256 := Nat.mod_lt _ (by norm_num)
    have h2 : byteD s.data (s.pos + 2) < 256 := Nat.mod_lt _ (by norm_num)
    have h3 : byteD s.data (s.pos + 3) < 256 := Nat.mod_lt _ (by norm_num)
    refine ⟨by unfold le32D; norm_num; omega, ?_, ?_, ?_, ?_⟩
    · show le32D s.data s.pos &&& 8191 = _
      rw [hmask13]
      norm_num
    · show (le32D s.data s.pos >>> 17) &&& 8191 = _
      rw [hmask13, Nat.shiftRight_eq_div_pow]
      norm_num
    · show (le32D s.data s.pos >>> 13) &&& 15 = _
      rw [hmask4, Nat.shiftRight_eq_div_pow]
      norm_num
    · show le32D s.data s.pos >>> 30 = _
      rw [Nat.shiftRight_eq_div_pow]
  · intro cue offset cue' s' h
    unfold readCueVarations at h
    simp only [bind_ok, ok_bind, seek_ok, data_mk, pos_mk, size_def,
      Prod.mk.injEq, Prod.exists, exists_eq_left, exists_eq_left',
      and_assoc, exists_and_left, Except.ok.injEq] at h
    obtain ⟨-, c, cur, sel, fl, s₁, hrv, vars, s₂, hloop, rfl, rfl⟩ := h
    exact ⟨(c, cur, sel, fl), s₁, hrv, rfl⟩
  · intro waveBanks track offset track' s' h
    unfold readWaveVariations at h
    simp only [bind_ok, ok_bind, seek_ok, data_mk, pos_mk, size_def,
      Prod.mk.injEq, Prod.exists, exists_eq_left, exists_eq_left',
      and_assoc, exists_and_left, Except.ok.injEq] at h
    obtain ⟨-, c, cur, sel, fl, s₁, hrv, hloop⟩ := h
    obtain ⟨-, hselp, -⟩ := readWaveVariationsLoop_spec hloop
    exact ⟨(c, cur, sel, fl), s₁, hrv, by rw [hselp]⟩

/-- Witness for C5 at the concrete descriptor word 16385
(count 1, currentIndex 0, selectionMethod 2, flags 0). -/
theorem c5_variation_descriptor_witness :
    le32D [1, 64, 0, 0] 0 < 2 ^ 32 ∧
    ((1, 0, 2, 0) : Nat × Nat × Nat × Nat).1 = le32D [1, 64, 0, 0] 0 % 2 ^ 13 ∧
    ((1, 0, 2, 0) : Nat × Nat × Nat × Nat).2.1 =
      le32D [1, 64, 0, 0] 0 / 2 ^ 17 % 2 ^ 13 ∧
    ((1, 0, 2, 0) : Nat × Nat × Nat × Nat).2.2.1 =
      le32D [1, 64, 0, 0] 0 / 2 ^ 13 % 2 ^ 4 ∧
    ((1, 0, 2, 0) : Nat × Nat × Nat × Nat).2.2.2 =
      le32D [1, 64, 0, 0] 0 / 2 ^ 30 :=
  (c5_variation_descriptor ⟨[1, 64, 0, 0], 0⟩).1 (1, 0, 2, 0)
    ⟨[1, 64, 0, 0], 4⟩ rfl

/-- C6: a wrong 4-byte big-endian magic tag or an unsupported version
makes the decode fail before any table is read, returning no partial
bank: any buffer whose leading big-endian word differs from `SDBK`
fails (with the magic-error message when the word is even readable), and
a correct magic with a 16-bit version other than 11 fails with the
version-error message. -/
theorem c6_magic_version (buffer : List Nat) :
    (be32D buffer 0 ≠ kXSBID → ∃ e, decode buffer = .error e) ∧
    (4 ≤ buffer.length → be32D buffer 0 ≠ kXSBID →
      decode buffer = .error "Not a XSB file") ∧
    (6 ≤ buffer.length → be32D buffer 0 = kXSBID → le16D buffer 4 ≠ 11 →
      decode buffer = .error "Unsupported XSB file version") := by
  have hshort : ¬4 ≤ buffer.length →
      decode buffer = .error "XSB: read past end of stream" := by
    intro hl
    unfold decode load
    have hbe : readUint32BE ⟨buffer, 0⟩ = .error "XSB: read past end of stream" := by
      unfold readUint32BE
      rw [if_neg (by simpa using hl)]
    rw [hbe]
    rfl
  have hmagicbad : 4 ≤ buffer.length → be32D buffer 0 ≠ kXSBID →
      decode buffer = .error "Not a XSB file" := by
    intro hlen hmagic
    unfold decode load
    have hbe : readUint32BE ⟨buffer, 0⟩ = .ok (be32D buffer 0, ⟨buffer, 4⟩) := by
      unfold readUint32BE
      rw [if_pos (by simpa using hlen)]
      rfl
    rw [hbe]
    simp only [ok_bind, throw_bind]
    rw [if_pos hmagic]
  refine ⟨?_, hmagicbad, ?_⟩
  · intro hmagic
    by_cases hlen : 4 ≤ buffer.length
    · exact ⟨_, hmagicbad hlen hmagic⟩
    · exact ⟨_, hshort hlen⟩
  · intro h6 hmagic hver
    unfold decode load
    have hbe : readUint32BE ⟨buffer, 0⟩ = .ok (be32D buffer 0, ⟨buffer, 4⟩) := by
      unfold readUint32BE
      rw [if_pos (by simp only [size_def, pos_mk]; omega)]
      rfl
    rw [hbe]
    simp only [ok_bind, throw_bind, pureE_bind]
    rw [if_neg (by simp [hmagic])]
    have h16 : readUint16LE ⟨buffer, 4⟩ = .ok (le16D buffer 4, ⟨buffer, 6⟩) := by
      unfold readUint16LE
      rw [if_pos (by simp only [size_def, pos_mk]; omega)]
      rfl
    rw [h16]
    simp only [ok_bind, throw_bind, pureE_bind]
    rw [if_pos hver]

/-- Witness for C6: a buffer with the wrong magic, and a good-magic
buffer with version 12. -/
theorem c6_magic_version_witness :
    decode [9, 9, 9, 9] = .error "Not a XSB file" ∧
    decode [0x53, 0x44, 0x42, 0x4B, 12, 0] =
      .error "Unsupported XSB file version" :=
  ⟨(c6_magic_version [9, 9, 9, 9]).2.1 (by decide) (by decide),
   (c6_magic_version [0x53, 0x44, 0x42, 0x4B, 12, 0]).2.2 (by decide)
     (by decide) (by decide)⟩


/-- C7: when the global "no cue names" flag (bit 0 of the header flag
field) is set, a cue's name is never read — the cue's name stays empty
and nothing is registered in the name lookup — even if the record's name
offset field is not the sentinel `0xFFFFFFFF`.  The last conjunct decodes
a record whose non-sentinel name offset (1000) lies far outside the
20-byte buffer and still succeeds, showing the offset is never seeked. -/
theorem c7_no_cue_names :
    (∀ (xsbFlags : Nat) (s : ByteStream) (cue : Cue) (reg : Option String)
       (s' : ByteStream),
      xsbFlags &&& kXSBNoCueNames ≠ 0 →
      readCue xsbFlags s = .ok (cue, reg, s') →
      cue.name = "" ∧ reg = none) ∧
    (∀ (xsbFlags offset count : Nat) (s : ByteStream) (cues' : List Cue)
       (cueMap' : List (String × Nat)) (s' : ByteStream),
      xsbFlags &&& kXSBNoCueNames ≠ 0 →
      readCues xsbFlags offset count s = .ok (cues', cueMap', s') →
      cueMap' = []) ∧
    readCue 1 ⟨exBufC7, 0⟩ = .ok ({}, none, ⟨exBufC7, 20⟩) := by
  refine ⟨?_, ?_, rfl⟩
  · intro xsbFlags s cue reg s' hfl h
    exact (readCue_spec h).2.2.1 hfl
  · intro xsbFlags offset count s cues' cueMap' s' hfl h
    exact (readCues_spec h).2.2 hfl

/-- Witness for C7 at the concrete cue record `exBufC7` with the flag
set. -/
theorem c7_no_cue_names_witness :
    ({} : Cue).name = "" ∧ (none : Option String) = none :=
  c7_no_cue_names.1 1 ⟨exBufC7, 0⟩ {} none ⟨exBufC7, 20⟩ (by decide) rfl

/-- C8: a cue record whose 32-bit entry offset is the sentinel
`0xFFFFFFFF` and whose 16-bit direct sound index is not the sentinel
`0xFFFF` decodes to exactly one synthesized variation — that sound
index, ordered selection, full-range weights; if both sentinels are
present the cue gets no variations. -/
theorem c8_direct_sound_synthesis (xsbFlags : Nat) (s : ByteStream)
    (cue : Cue) (reg : Option String) (s' : ByteStream)
    (h : readCue xsbFlags s = .ok (cue, reg, s'))
    (hsent : le32D s.data (s.pos + 8) = 4294967295) :
    (le16D s.data (s.pos + 2) ≠ 65535 →
      cue.variationSelectMethod = kSelectMethodOrdered ∧
      cue.variations = [{ soundIndex := le16D s.data (s.pos + 2),
                          weightMin := kWeightMinimum,
                          weightMax := kWeightMaximum }]) ∧
    (le16D s.data (s.pos + 2) = 65535 → cue.variations = []) :=
  (readCue_spec h).2.2.2 hsent

/-- Witness for C8 at the concrete cue record `exBufC8` (direct sound
index 5, both offsets sentinel). -/
theorem c8_direct_sound_synthesis_witness :
    ({ name := "", variationSelectMethod := kSelectMethodOrdered,
       variations := [{ soundIndex := 5, weightMin := 0, weightMax := 255 }] } :
      Cue).variationSelectMethod = kSelectMethodOrdered ∧
    ({ name := "", variationSelectMethod := kSelectMethodOrdered,
       variations := [{ soundIndex := 5, weightMin := 0, weightMax := 255 }] } :
      Cue).variations =
      [{ soundIndex := le16D exBufC8 (0 + 2), weightMin := kWeightMinimum,
         weightMax := kWeightMaximum }] :=
  (c8_direct_sound_synthesis 0 ⟨exBufC8, 0⟩
      { name := "", variationSelectMethod := kSelectMethodOrdered,
        variations := [{ soundIndex := 5, weightMin := 0, weightMax := 255 }] }
      none ⟨exBufC8, 20⟩ rfl (by decide)).1 (by decide)

/-- C9: every wave variation added during decode resolves its packed
bank index (top 16 bits of the indices word) against the loaded wave
banks: an out-of-range index leaves the owning bank name empty — with no
error, since `addWaveVariation` is total — and an in-range index copies
that bank's name; the low 16 bits become the variation's sound index. -/
theorem c9_wave_bank_resolution (waveBanks : List WaveBank) (track : Track)
    (indices weightMin weightMax : Nat) :
    ∃ w : WaveVariation,
      (addWaveVariation waveBanks track indices weightMin weightMax).waves =
        track.waves ++ [w] ∧
      w.index = indices &&& 0xFFFF ∧
      w.bank = ((waveBanks[indices >>> 16]?).map WaveBank.name).getD "" := by
  refine ⟨waveOf waveBanks indices weightMin weightMax, rfl, rfl, ?_⟩
  unfold waveOf
  dsimp only
  split
  · rename_i h
    rw [List.getElem?_eq_getElem h]
    simp [List.get_eq_getElem]
  · rename_i h
    rw [List.getElem?_eq_none (by omega)]
    rfl

/-- C10 (amended): within a complex track at most one deferred
wave-variation-table offset is kept: the per-track offset is the fold
that lets the last capturing Play/PlayComplex event (multiple-variations
flag, at least 4 declared payload bytes) overwrite all earlier captures;
after all events are read, the table at that offset is decoded exactly
once — unless the final offset equals the sentinel `0xFFFFFFFF` (in
particular when no event captured at all), in which case no table is
read.  (The claim as stated — the last captured offset is always
resolved — is refuted by `c10_deferred_wave_table_counterexample`, where
the last capture is the sentinel itself.) -/
theorem c10_deferred_wave_table_amended :
    (∀ (waveBanks : List WaveBank) (track : Track) (sound : Sound)
       (s : ByteStream) (track' : Track) (sound' : Sound) (s' : ByteStream),
      readComplexTrack waveBanks track sound s = .ok (track', sound', s') →
      ∃ track1 sound1 s1,
        readEvents waveBanks (le32D s.data s.pos &&& 0xFF) track sound
            4294967295 ⟨s.data, le32D s.data s.pos >>> 8⟩ =
          .ok (track1, sound1,
            captureFold s.data (le32D s.data s.pos >>> 8)
              (le32D s.data s.pos &&& 0xFF) 4294967295, s1) ∧
        sound' = sound1 ∧
        ((captureFold s.data (le32D s.data s.pos >>> 8)
            (le32D s.data s.pos &&& 0xFF) 4294967295 = 4294967295 ∧
          track' = track1 ∧ s' = s1) ∨
         (captureFold s.data (le32D s.data s.pos >>> 8)
            (le32D s.data s.pos &&& 0xFF) 4294967295 ≠ 4294967295 ∧
          readWaveVariations waveBanks track1
            (captureFold s.data (le32D s.data s.pos >>> 8)
              (le32D s.data s.pos &&& 0xFF) 4294967295) s1 =
            .ok (track', s')))) ∧
    (∀ (d : List Nat) (p n wo : Nat),
      (∀ i < n, ¬capturesAt d (eventPosIter d p i)) →
      captureFold d p n wo = wo) ∧
    (∀ (d : List Nat) (p n wo i : Nat), i < n →
      capturesAt d (eventPosIter d p i) →
      (∀ j, i < j → j < n → ¬capturesAt d (eventPosIter d p j)) →
      captureFold d p n wo = le32D d (eventPosIter d p i + 8)) := by
  refine ⟨?_, ?_, ?_⟩
  · intro waveBanks track sound s track' sound' s' h
    obtain ⟨t1, u1, v1, hev, hso, hdisj, -, -⟩ := readComplexTrack_spec h
    exact ⟨t1, u1, v1, hev, hso, hdisj⟩
  · intro d p n wo h
    exact captureFold_no_capture h
  · intro d p n wo i hi hc hl
    exact captureFold_last_capture hi hc hl

/-- C10, as stated, is false on the code: in `exBufC10` the single (and
hence last) event of the track captures the offset `0xFFFFFFFF`, yet the
decode succeeds with no wave-variation table read (`waves = []`); had
the captured offset been resolved, the decode would have failed, as the
final conjunct shows. -/
theorem c10_deferred_wave_table_counterexample :
    readComplexTrack [] {} {} ⟨exBufC10, 0⟩ =
      .ok ({ variationSelectMethod := 0, waves := [],
             events := [{ type := 0, timestamp := 0, params := .blank }] },
           {}, ⟨exBufC10, 16⟩) ∧
    capturesAt exBufC10 4 ∧
    readWaveVariations []
      { variationSelectMethod := 0, waves := [],
        events := [{ type := 0, timestamp := 0, params := .blank }] }
      4294967295 ⟨exBufC10, 16⟩ = .error "XSB: seek past end of stream" :=
  ⟨rfl, by decide, rfl⟩

/-- Witness for C10 (amended): in `exBufC10W` the second of two
capturing events is the last one, so the fold returns the 32-bit word at
its payload (offset 28); and a fold over events that never capture
returns its initial value. -/
theorem c10_deferred_wave_table_witness :
    captureFold exBufC10W 4 2 4294967295 =
      le32D exBufC10W (eventPosIter exBufC10W 4 1 + 8) ∧
    captureFold [] 0 3 7 = 7 :=
  ⟨c10_deferred_wave_table_amended.2.2 exBufC10W 4 2 4294967295 1
      (by decide) (by decide) (fun j hj hjn => absurd hjn (by omega)),
   c10_deferred_wave_table_amended.2.1 [] 0 3 7
      (fun i _ hc => by simp [capturesAt, byteD] at hc)⟩
end XACT
